import Mathlib

/-!
Elevator controller: request scheduler and wire protocol.

Shallow embedding of `Request.h`, `Elevator.h` and `NetProtocol.h`.

Conventions of the embedding:

* `uint8_t`, `uint16_t` and `uint64_t` values are natural numbers; a reduction
  modulo `2 ^ w` is written wherever the C++ code narrows or wraps a value.
* `int64_t` and `long` values are integers; the width of `long` depends on the
  build platform and is a parameter (`Platform`).
* State is passed explicitly: the scheduler is a record, a connection is the
  log of the buffers written to it, the clock reading is an argument.
* Mutexes, condition variables, sleeps and console output have no effect on
  the values computed and are left out.
-/

namespace ElevatorSys

/-! ## Platform -/

/-- Data models of the two build targets of the sources: `LLP64` is the
documented mingw-w64 build on Windows (32-bit `long`), `LP64` is Linux
(64-bit `long`). -/
inductive Platform where
  | LLP64
  | LP64
deriving DecidableEq

/-- Width in bits of the C++ type `long`. -/
def Platform.longBits : Platform → Nat
  | .LLP64 => 32
  | .LP64 => 64

/-- Models `LONG_MAX` of `<climits>`. -/
def LONG_MAX (p : Platform) : Int := 2 ^ (p.longBits - 1) - 1

/-- Conversion of an integer value to `long`: two's-complement wrap to
`longBits` bits. -/
def toLong (p : Platform) (x : Int) : Int :=
  let m : Int := 2 ^ p.longBits
  let r : Int := x % m
  if r < m / 2 then r else r - m

/-! ## Request.h -/

/-- Models `Request::Command::CALL`. -/
abbrev Request.Command.CALL : Nat := 1

/-- Models `Request::Command::GO`. -/
abbrev Request.Command.GO : Nat := 2

/-- Models `Request::Direction::UP`. -/
abbrev Request.Direction.UP : Nat := 1

/-- Models `Request::Direction::DOWN`. -/
abbrev Request.Direction.DOWN : Nat := 2

/-- The class `Request`. The enum-class members `cmd_` and `direction_` hold
the raw `uint8_t` they were cast from. -/
structure Request where
  node_addr_ : Nat
  time_ : Int
  msg_id_ : Nat
  cmd_ : Nat
  floor_ : Nat
  direction_ : Nat
  ok_ : Bool
deriving DecidableEq

/-- The constructor `Request(node_addr, msg_id, long time, cmd, floor,
direction, ok)`: the time argument passes through a parameter of type
`long`. -/
def Request.ctor (p : Platform) (node_addr msg_id : Nat) (time : Int)
    (cmd floor direction : Nat) (ok : Bool) : Request :=
  { node_addr_ := node_addr
    time_ := toLong p time
    msg_id_ := msg_id
    cmd_ := cmd
    floor_ := floor
    direction_ := direction
    ok_ := ok }

/-- Models `upComparator::operator()`. -/
def upComparator (p1 p2 : Request) : Bool := decide (p1.floor_ < p2.floor_)

/-- Models `downComparator::operator()`. -/
def downComparator (p1 p2 : Request) : Bool := decide (p1.floor_ ≥ p2.floor_)

/-! ## std::priority_queue over a vector (libstdc++ heap algorithms) -/

/-- The loop of `std::__push_heap` with `topIndex = 0`: the hole moves up
while the parent compares below `value`; `fuel` bounds the iterations. -/
def push_heap_loop {α : Type} (comp : α → α → Bool) (value : α) :
    Nat → List α → Nat → List α
  | 0, v, holeIndex => v.set holeIndex value
  | fuel + 1, v, holeIndex =>
    let parent := (holeIndex - 1) / 2
    if holeIndex > 0 && comp (v.getD parent value) value then
      push_heap_loop comp value fuel (v.set holeIndex (v.getD parent value)) parent
    else
      v.set holeIndex value

/-- Models `std::push_heap(first, last, comp)`: sifts the last element up. The hole
index strictly decreases, so `length - 1` iterations always suffice. -/
def push_heap {α : Type} (comp : α → α → Bool) (v : List α) : List α :=
  match v.getLast? with
  | none => v
  | some value => push_heap_loop comp value (v.length - 1) v (v.length - 1)

/-- Models `std::priority_queue::push`: `c.push_back(x)` then `std::push_heap`. -/
def priority_queue_push {α : Type} (comp : α → α → Bool) (c : List α) (x : α) : List α :=
  push_heap comp (c ++ [x])

/-- The first loop of `std::__adjust_heap`: the hole moves down to the child
that does not compare below its sibling, while the hole has two children
inside `[0, len)`. Returns the array, the hole index and `secondChild`. The
index `secondChild` strictly grows, so `len` iterations always suffice. -/
def adjust_heap_loop {α : Type} (comp : α → α → Bool) (value : α) (len : Nat) :
    Nat → List α → Nat → Nat → List α × Nat × Nat
  | 0, v, holeIndex, secondChild => (v, holeIndex, secondChild)
  | fuel + 1, v, holeIndex, secondChild =>
    if secondChild < (len - 1) / 2 then
      let secondChild := 2 * (secondChild + 1)
      let secondChild :=
        if comp (v.getD secondChild value) (v.getD (secondChild - 1) value) then secondChild - 1
        else secondChild
      adjust_heap_loop comp value len fuel (v.set holeIndex (v.getD secondChild value))
        secondChild secondChild
    else
      (v, holeIndex, secondChild)

/-- Models `std::__adjust_heap(first, 0, len, value, comp)`, the call made by
`std::__pop_heap`: the hole sinks from the root to a leaf, a lone left child
at the end of an even-length range is taken last, then `value` is sifted up
from the leaf with `std::__push_heap`. -/
def adjust_heap {α : Type} (comp : α → α → Bool) (v : List α) (len : Nat) (value : α) :
    List α :=
  let r := adjust_heap_loop comp value len len v 0 0
  let v := r.1
  let holeIndex := r.2.1
  let secondChild := r.2.2
  if len % 2 = 0 && secondChild = (len - 2) / 2 then
    let secondChild := 2 * (secondChild + 1)
    let v := v.set holeIndex (v.getD (secondChild - 1) value)
    push_heap_loop comp value (secondChild - 1) v (secondChild - 1)
  else
    push_heap_loop comp value holeIndex v holeIndex

/-- Models `std::pop_heap(first, last, comp)`: with more than one element, the
last element is saved, the root is stored in the last slot and the saved
value is placed into the remaining range by `std::__adjust_heap`. -/
def pop_heap {α : Type} (comp : α → α → Bool) (v : List α) : List α :=
  if v.length > 1 then
    match v.getLast?, v.head? with
    | some value, some top => adjust_heap comp (v.set (v.length - 1) top) (v.length - 1) value
    | _, _ => v
  else
    v

/-- Models `std::priority_queue::pop`: `std::pop_heap` then `c.pop_back()`. -/
def priority_queue_pop {α : Type} (comp : α → α → Bool) (c : List α) : List α :=
  (pop_heap comp c).dropLast


/-! ## Elevator.h : ElevatorCtrl -/

/-- Models `ElevatorCtrl::State`. -/
inductive State where
  | MOVING
  | STOPPED
deriving DecidableEq

/-- Models `ElevatorCtrl::Door`. -/
inductive Door where
  | OPEN
  | CLOSED
deriving DecidableEq

/-- Underlying `uint8_t` of `ElevatorCtrl::State` (`MOVING = 1, STOPPED`). -/
def State.toUInt8 : State → Nat
  | .MOVING => 1
  | .STOPPED => 2

/-- The data members of `ElevatorCtrl` that the scheduler reads and writes.
`upQueue_` and `downQueue_` are the heap arrays of the two priority queues,
`currentQueue_` is the FIFO with its front at the head of the list. -/
structure ElevatorCtrl where
  location_ : Nat
  direction_ : Nat
  state_ : State
  door_ : Door
  upQueue_ : List Request
  downQueue_ : List Request
  currentQueue_ : List Request
deriving DecidableEq

/-- The constructor `ElevatorCtrl()`. -/
def ElevatorCtrl.init : ElevatorCtrl :=
  { location_ := 0
    direction_ := Request.Direction.UP
    state_ := State.STOPPED
    door_ := Door.CLOSED
    upQueue_ := []
    downQueue_ := []
    currentQueue_ := [] }

/-- Models `ElevatorCtrl::call`; `now` is the value returned by `current_time_ms()`. -/
def ElevatorCtrl.call (p : Platform) (now : Int) (s : ElevatorCtrl)
    (node_addr msg_id floor direction : Nat) : ElevatorCtrl :=
  let r := Request.ctor p node_addr msg_id now 0 floor direction true
  if direction = Request.Direction.UP then
    if floor ≥ s.location_ then
      { s with currentQueue_ := s.currentQueue_ ++ [r] }
    else
      { s with upQueue_ := priority_queue_push upComparator s.upQueue_ r }
  else
    if floor ≤ s.location_ then
      { s with currentQueue_ := s.currentQueue_ ++ [r] }
    else
      { s with downQueue_ := priority_queue_push downComparator s.downQueue_ r }

/-- Models `ElevatorCtrl::go`. -/
def ElevatorCtrl.go (p : Platform) (now : Int) (s : ElevatorCtrl)
    (node_addr msg_id floor : Nat) : ElevatorCtrl :=
  s.call p now node_addr msg_id floor s.direction_

/-- Models `ElevatorCtrl::input_data_consumer`; the `std::invalid_argument` thrown in
the default branch is the `error` result. -/
def ElevatorCtrl.input_data_consumer (p : Platform) (now : Int) (s : ElevatorCtrl)
    (cmd_tuple : Nat × Nat × Nat × Nat × Nat) : Except String ElevatorCtrl :=
  let (node_addr, msg_id, cmd, floor_num, direction) := cmd_tuple
  if cmd = 1 then
    .ok (s.call p now node_addr msg_id floor_num direction)
  else if cmd = 2 then
    .ok (s.go p now node_addr msg_id floor_num)
  else
    .error ("Illegal command: " ++ toString cmd)

/-- One value emitted on `onNewData_`: the tuple stored in `output_items_`
together with the scheduler as it is when `emitNewData()` is called. -/
abbrev Emission := (Nat × Nat × Nat × Nat × Nat) × ElevatorCtrl

/-- The `for` loop of `ElevatorCtrl::goToFloor` from the loop test on, with
the `uint8_t` counter `i`; `s` is the scheduler during the loop and `log` the
emissions so far. `none` when the loop is still running after `fuel` tests. -/
def goToFloor_loop (s : ElevatorCtrl) (node_addr msg_id floor : Nat) :
    Nat → Nat → List Emission → Option (List Emission)
  | 0, _, _ => none
  | fuel + 1, i, log =>
    if i ≤ floor then
      goToFloor_loop s node_addr msg_id floor fuel ((i + 1) % 256)
        (log ++ [((node_addr, msg_id, 3, i, State.MOVING.toUInt8), s)])
    else
      some log

/-- Models `ElevatorCtrl::goToFloor`: the scheduler afterwards and the
emissions in order, or `none` when the loop does not end within `fuel`
tests. -/
def ElevatorCtrl.goToFloor (fuel : Nat) (s : ElevatorCtrl) (node_addr msg_id floor : Nat) :
    Option (ElevatorCtrl × List Emission) :=
  let s := { s with state_ := State.MOVING }
  match goToFloor_loop s node_addr msg_id floor fuel s.location_ [] with
  | none => none
  | some log =>
    let s := { s with location_ := floor }
    let s := { s with door_ := Door.OPEN }
    let s := { s with state_ := State.STOPPED }
    let log := log ++ [((node_addr, msg_id, 3, floor, State.STOPPED.toUInt8), s)]
    let s := { s with door_ := Door.CLOSED }
    some (s, log)

/-- The `while` loop shared by `getLowestTimeUpQueue` and
`getLowestTimeDownQueue` on the heap array `q`, from the loop test on: the
body reads `top()` and never pops. `none` when the loop is still running
after `fuel` tests. -/
def getLowestTime_loop (q : List Request) : Nat → Int → Option Int
  | 0, _ => none
  | fuel + 1, lowest =>
    match q with
    | [] => some lowest
    | top :: _ => getLowestTime_loop q fuel (if top.time_ < lowest then top.time_ else lowest)

/-- Models `ElevatorCtrl::getLowestTimeUpQueue`. -/
def ElevatorCtrl.getLowestTimeUpQueue (p : Platform) (fuel : Nat) (s : ElevatorCtrl) :
    Option Int :=
  getLowestTime_loop s.upQueue_ fuel (LONG_MAX p)

/-- Models `ElevatorCtrl::getLowestTimeDownQueue`. -/
def ElevatorCtrl.getLowestTimeDownQueue (p : Platform) (fuel : Nat) (s : ElevatorCtrl) :
    Option Int :=
  getLowestTime_loop s.downQueue_ fuel (LONG_MAX p)

/-- The two `while` loops of `ElevatorCtrl::preProcessNextQueue`: `top()` is
pushed on the FIFO `cur` and popped from the heap array `q` until `q` is
empty; every pass shortens `q`, so `q.length` passes always suffice. -/
def drainQueue (comp : Request → Request → Bool) :
    Nat → List Request → List Request → List Request × List Request
  | 0, q, cur => (q, cur)
  | fuel + 1, q, cur =>
    match q with
    | [] => (q, cur)
    | top :: _ => drainQueue comp fuel (priority_queue_pop comp q) (cur ++ [top])

/-- Models `ElevatorCtrl::preProcessNextQueue`. Both operands of the comparison
are evaluated (in either order) before it is made, so the call returns only
when both helper calls return. -/
def ElevatorCtrl.preProcessNextQueue (p : Platform) (fuel : Nat) (s : ElevatorCtrl) :
    Option ElevatorCtrl :=
  match s.getLowestTimeUpQueue p fuel, s.getLowestTimeDownQueue p fuel with
  | some up, some down =>
    if up > down then
      let s := { s with direction_ := Request.Direction.UP }
      let r := drainQueue upComparator s.upQueue_.length s.upQueue_ s.currentQueue_
      some { s with upQueue_ := r.1, currentQueue_ := r.2 }
    else
      let s := { s with direction_ := Request.Direction.DOWN }
      let r := drainQueue downComparator s.downQueue_.length s.downQueue_ s.currentQueue_
      some { s with downQueue_ := r.1, currentQueue_ := r.2 }
  | _, _ => none

/-- Models `ElevatorCtrl::process`, one dispatch step after the bounded wait:
the scheduler afterwards and the emissions of the step, or `none` when the
step does not return within `fuel` loop tests. -/
def ElevatorCtrl.process (p : Platform) (fuel : Nat) (s : ElevatorCtrl) :
    Option (ElevatorCtrl × List Emission) :=
  match s.currentQueue_ with
  | r :: rest =>
    ElevatorCtrl.goToFloor fuel { s with currentQueue_ := rest } r.node_addr_ r.msg_id_ r.floor_
  | [] =>
    match s.preProcessNextQueue p fuel with
    | none => none
    | some s => some (s, [])


/-! ## NetProtocol.h : checksum -/

/-- Models `Net::NODE_ADDRESS`. -/
def NODE_ADDRESS : Nat := 0x3E8

/-- Models `Net::POLY`. -/
def POLY : Nat := 0x8408

/-- One iteration of the inner loop of `crc16` on the pair
`(crc, cur_byte)`; the assignment to the `uint16_t` register narrows. -/
def crc16_bit (st : Nat × Nat) : Nat × Nat :=
  let crc := st.1
  let cur_byte := st.2
  let crc := if (crc &&& 0x0001) ^^^ (cur_byte &&& 0x0001) ≠ 0 then
      ((crc >>> 1) ^^^ POLY) % 65536
    else
      crc >>> 1
  (crc, cur_byte >>> 1)

/-- Body of the outer loop of `crc16`: `cur_byte = 0xFF & b`, then eight
iterations of the inner loop. -/
def crc16_byte (crc : Nat) (b : Nat) : Nat :=
  (crc16_bit^[8] (crc, 0xFF &&& b)).1

/-- Models `Net::crc16`. The complement `~crc` is taken on the promoted 32-bit
`int`, whose bit pattern is `crc ^^^ 0xFFFFFFFF`; the assignment of the
swapped value back to the `uint16_t` register narrows. -/
def crc16 (data : List Nat) : Nat :=
  let crc := data.foldl crc16_byte 0xFFFF
  let crc := (crc ^^^ 0xFFFFFFFF) &&& 0xFFFF
  let crc := ((crc <<< 8) ||| ((crc >>> 8) &&& 0xFF)) % 65536
  crc &&& 0xFFFF

/-! ### Reference checksum, following the words of the specification -/

/-- One data bit of the reference CRC: shift the register right by one and
XOR it with `0x8408` exactly when its low bit differs from the data bit. -/
def crcRefBit (reg : Nat) (dataBit : Bool) : Nat :=
  if reg.testBit 0 ≠ dataBit then (reg / 2) ^^^ 0x8408 else reg / 2

/-- One byte of the reference CRC: its eight bits, least significant first. -/
def crcRefByte (reg : Nat) (b : Nat) : Nat :=
  (List.range 8).foldl (fun r i => crcRefBit r (b.testBit i)) reg

/-- The raw reference register after all bytes, started at `0xFFFF`. -/
def crcRefRegister (data : List Nat) : Nat :=
  data.foldl crcRefByte 0xFFFF

/-- The reference CRC16-CCITT of the specification: the one's complement of
the 16-bit register with its two bytes swapped. -/
def crcRef (data : List Nat) : Nat :=
  let c := 0xFFFF - crcRefRegister data
  (c % 256) * 256 + c / 256

/-! ## NetProtocol.h : streams -/

/-- A `std::istringstream`: its buffer, the get position and the fail bit. -/
structure IStream where
  buf : List Nat
  pos : Nat
  fail : Bool
deriving DecidableEq

/-- Models `istream::read(dst, n)` where `dst` is the previous content of the `n`
destination bytes: after a failure nothing is stored; a short read stores the
bytes that are left and sets the fail bit. The new content of the destination
is returned with the stream. -/
def IStream.read (s : IStream) (n : Nat) (dst : List Nat) : List Nat × IStream :=
  if s.fail then
    (dst, s)
  else
    let got := (s.buf.drop s.pos).take n
    if got.length = n then
      (got, { s with pos := s.pos + n })
    else
      (got ++ dst.drop got.length, { s with pos := s.pos + got.length, fail := true })

/-- Models `istream::seekg(off, std::ios_base::beg)`. -/
def IStream.seekg (s : IStream) (off : Nat) : IStream :=
  if s.fail then s
  else if off ≤ s.buf.length then { s with pos := off }
  else { s with fail := true }

/-- A `std::ostringstream`: its buffer, the put position and the fail bit. -/
structure OStream where
  buf : List Nat
  pos : Nat
  fail : Bool
deriving DecidableEq

/-- A `std::ostringstream ostream(std::ostringstream::ate)` as constructed. -/
def OStream.empty : OStream := { buf := [], pos := 0, fail := false }

/-- Models `ostream::write(src, n)`: stores at the put position, overwriting or
extending the buffer. -/
def OStream.write (s : OStream) (bytes : List Nat) : OStream :=
  if s.fail then s
  else
    { s with
      buf := s.buf.take s.pos ++ bytes ++ s.buf.drop (s.pos + bytes.length)
      pos := s.pos + bytes.length }

/-- Models `ostream::seekp(off, std::ios_base::beg)`. -/
def OStream.seekp (s : OStream) (off : Nat) : OStream :=
  if s.fail then s
  else if off ≤ s.buf.length then { s with pos := off }
  else { s with fail := true }

/-- Models `ostringstream::str()`. -/
def OStream.str (s : OStream) : List Nat := s.buf

/-! ## NetProtocol.h : MsgProtocol -/

/-- Models `MsgProtocol::MagicValue`. -/
def MagicValue : Nat := 0x0E

/-- The preprocessor constant `OPTYPE_BITMASK_SIZE`. -/
def OPTYPE_BITMASK_SIZE : Nat := 2

/-- The preprocessor function `TMSG_OPTYPE_MASK(x)` with `sizeof(msg_type_t) = 1`,
narrowed to the `uint8_t` underlying `MSG_OPTYPE`. -/
def TMSG_OPTYPE_MASK (x : Nat) : Nat := (x <<< (1 * 8 - OPTYPE_BITMASK_SIZE)) % 256

/-- Models `MSG_OPTYPE::OP_MSG`. -/
def MSG_OPTYPE.OP_MSG : Nat := TMSG_OPTYPE_MASK 0x00

/-- Models `MSG_OPTYPE::OP_NAK`. -/
def MSG_OPTYPE.OP_NAK : Nat := TMSG_OPTYPE_MASK 0x02

/-- Models `MSG_OPTYPE::OP_ACK`. -/
def MSG_OPTYPE.OP_ACK : Nat := TMSG_OPTYPE_MASK 0x03

/-- Models `MSGTYPE::MSG_CTRL`. -/
def MSGTYPE.MSG_CTRL : Nat := 1

/-- Models `MSGTYPE::MSG_DATA`. -/
def MSGTYPE.MSG_DATA : Nat := 2

/-- Models `sizeof(msg_hdr_t)` under `#pragma pack(push, 1)`. -/
def sizeof_msg_hdr_t : Nat := 1 + 2 + 2 + 1 + 2 + 2

/-- Models `sizeof(msg_payload_t)` under `#pragma pack(push, 1)`. -/
def sizeof_msg_payload_t : Nat := 8 + 1 + 1 + 1

/-- The struct `msg_hdr_t`. -/
structure msg_hdr_t where
  magic : Nat
  tx_node_addr : Nat
  rx_node_addr : Nat
  msg_class : Nat
  msg_id : Nat
  len : Nat
deriving DecidableEq

/-- The struct `msg_payload_t`. -/
structure msg_payload_t where
  timetag : Nat
  command : Nat
  floor_num : Nat
  direction : Nat
deriving DecidableEq

/-- Value of `ntohs(x)` for the `uint16_t` whose memory image is `m`: the
big-endian reading of the image, on either host byte order. -/
def ntohs_mem (m : List Nat) : Nat := m.getD 0 0 * 256 + m.getD 1 0

/-- Value of `ntoh64(&x)` for the `uint64_t` whose memory image is `m`: the
big-endian reading of the eight bytes. -/
def ntoh64_mem (m : List Nat) : Nat :=
  (List.range 8).foldl (fun acc i => acc * 256 + m.getD i 0) 0

/-- Memory image of `htons(x)`: the two bytes of `x`, high byte first. -/
def htons_mem (x : Nat) : List Nat := [x / 256 % 256, x % 256]

/-- Memory image of `htonll(x)`: the eight bytes of `x`, high byte first. -/
def htonll_mem (x : Nat) : List Nat :=
  (List.range 8).map (fun i => x / 256 ^ (7 - i) % 256)

/-- Models `MsgProtocol::deserialize_header(stream, true)`. `uninit` is the content
of the ten bytes of the local `header` before the reads. -/
def deserialize_header (stream : IStream) (uninit : List Nat) : msg_hdr_t × IStream :=
  let (magic, stream) := stream.read 1 ((uninit.drop 0).take 1)
  let (tx_node_addr, stream) := stream.read 2 ((uninit.drop 1).take 2)
  let (rx_node_addr, stream) := stream.read 2 ((uninit.drop 3).take 2)
  let (msg_class, stream) := stream.read 1 ((uninit.drop 5).take 1)
  let (msg_id, stream) := stream.read 2 ((uninit.drop 6).take 2)
  let (len, stream) := stream.read 2 ((uninit.drop 8).take 2)
  ({ magic := magic.getD 0 0
     tx_node_addr := ntohs_mem tx_node_addr
     rx_node_addr := ntohs_mem rx_node_addr
     msg_class := msg_class.getD 0 0
     msg_id := ntohs_mem msg_id
     len := ntohs_mem len }, stream)

/-- Models `MsgProtocol::deserialize_payload(stream, true)`. `uninit` is the content
of the eleven bytes of the local `payload` before the reads. -/
def deserialize_payload (stream : IStream) (uninit : List Nat) : msg_payload_t × IStream :=
  let (timetag, stream) := stream.read 8 ((uninit.drop 0).take 8)
  let (command, stream) := stream.read 1 ((uninit.drop 8).take 1)
  let (floor_num, stream) := stream.read 1 ((uninit.drop 9).take 1)
  let (direction, stream) := stream.read 1 ((uninit.drop 10).take 1)
  ({ timetag := ntoh64_mem timetag
     command := command.getD 0 0
     floor_num := floor_num.getD 0 0
     direction := direction.getD 0 0 }, stream)

/-- Models `MsgProtocol::serialize_header(stream, header, true)`; the in-place
conversion of `header` to network order is not returned, no caller reads the
header afterwards. -/
def serialize_header (stream : OStream) (header : msg_hdr_t) : OStream :=
  let stream := stream.write [header.magic]
  let stream := stream.write (htons_mem header.tx_node_addr)
  let stream := stream.write (htons_mem header.rx_node_addr)
  let stream := stream.write [header.msg_class]
  let stream := stream.write (htons_mem header.msg_id)
  stream.write (htons_mem header.len)

/-- Models `MsgProtocol::serialize_payload(stream, payload, true)`. -/
def serialize_payload (stream : OStream) (payload : msg_payload_t) : OStream :=
  let stream := stream.write (htonll_mem payload.timetag)
  let stream := stream.write [payload.command]
  let stream := stream.write [payload.floor_num]
  stream.write [payload.direction]

/-- Models `MsgProtocol::serialize_crc16(stream, crc, true)`. -/
def serialize_crc16 (stream : OStream) (crc : Nat) : OStream :=
  stream.write (htons_mem crc)

/-- Models `MsgProtocol::header_check`. -/
def header_check (header : msg_hdr_t) (exp_len : Nat) : Bool :=
  let result := true
  let result := if header.magic ≠ MagicValue then false else result
  let result := if header.len ≠ exp_len then false else result
  let result := if header.msg_class ≠ MSGTYPE.MSG_DATA then false else result
  result

/-- Models `MsgProtocol::handle`. The connection is the log of the buffers written
to it (the blocking `send` is taken to succeed); `uninit_hdr` and
`uninit_payload` are the contents of the two local structs before they are
read into. Returns the `Request` and the connection. -/
def MsgProtocol.handle (p : Platform) (uninit_hdr uninit_payload : List Nat)
    (socket : List (List Nat)) (packet : List Nat) : Request × List (List Nat) :=
  let stream : IStream := { buf := packet, pos := 0, fail := false }
  let stream := stream.seekg 0
  let (msg_header, stream) := deserialize_header stream uninit_hdr
  let packetCheck := header_check msg_header msg_header.len
  let tx_node_addr := msg_header.tx_node_addr
  let msg_id := msg_header.msg_id
  let tmp := msg_header.tx_node_addr
  let msg_header := { msg_header with tx_node_addr := msg_header.rx_node_addr }
  let msg_header := { msg_header with rx_node_addr := tmp }
  let msg_header := { msg_header with
    msg_class := if packetCheck then (MSGTYPE.MSG_CTRL ||| MSG_OPTYPE.OP_ACK) % 256
                 else (MSGTYPE.MSG_CTRL ||| MSG_OPTYPE.OP_NAK) % 256 }
  let msg_header := { msg_header with len := sizeof_msg_hdr_t }
  let ostream := serialize_header OStream.empty msg_header
  let buffer := ostream.str
  let socket := socket ++ [buffer]
  let stream := stream.seekg sizeof_msg_hdr_t
  let (msg_payload, _) := deserialize_payload stream uninit_payload
  (Request.ctor p tx_node_addr msg_id (msg_payload.timetag : Int) msg_payload.command
    msg_payload.floor_num msg_payload.direction true, socket)

/-- Models `MsgProtocol::xmit`: the connection after the frame has been written. -/
def MsgProtocol.xmit (socket : List (List Nat))
    (cmd_tuple : Nat × Nat × Nat × Nat × Nat) : List (List Nat) :=
  let (rx_node_addr, msg_id, command, floor_num, direction) := cmd_tuple
  let payload : msg_payload_t :=
    { timetag := 0xa, command := command, floor_num := floor_num, direction := direction }
  let header : msg_hdr_t :=
    { magic := MagicValue
      tx_node_addr := NODE_ADDRESS
      rx_node_addr := rx_node_addr
      msg_class := 0x02
      msg_id := msg_id
      len := 23 }
  let ostream := serialize_header OStream.empty header
  let ostream := ostream.seekp sizeof_msg_hdr_t
  let ostream := serialize_payload ostream payload
  let buffer := ostream.str
  let crc := crc16 buffer
  let ostream := ostream.seekp (sizeof_msg_hdr_t + sizeof_msg_payload_t)
  let ostream := serialize_crc16 ostream crc
  socket ++ [ostream.str]

/-! ## NetProtocol.h : NetProtocol, Elevator.h : Elevator -/

/-- The `onRead` callback of `NetProtocol::run` on a live connection that
delivered `packet`: the connection afterwards, and the tuple stored in
`output_items_` and emitted on `onNewData_`. -/
def NetProtocol.onRead (p : Platform) (uninit_hdr uninit_payload : List Nat)
    (socket : List (List Nat)) (packet : List Nat) :
    List (List Nat) × (Nat × Nat × Nat × Nat × Nat) :=
  let (req, socket) := MsgProtocol.handle p uninit_hdr uninit_payload socket packet
  (socket, (req.node_addr_, req.msg_id_, req.cmd_, req.floor_, req.direction_))

/-- The `onRead` callback with the slot that `Elevator::connect_signal_slot`
attaches to the protocol's `onNewData_` signal, which is
`ElevatorCtrl::input_data_consumer`: the connection afterwards and the
controller afterwards (or the exception thrown by the slot). -/
def Elevator.onRead (p : Platform) (now : Int) (uninit_hdr uninit_payload : List Nat)
    (ctrl : ElevatorCtrl) (socket : List (List Nat)) (packet : List Nat) :
    List (List Nat) × Except String ElevatorCtrl :=
  let (socket, output_items) := NetProtocol.onRead p uninit_hdr uninit_payload socket packet
  (socket, ctrl.input_data_consumer p now output_items)



/-! ## signal_slot.h -/

/-- Models `INT_MAX` of `<climits>`; `int` has 32 bits on both platforms. -/
def INT_MAX : Int := 2 ^ 31 - 1

/-- The data members of `signal_slot<Args...>`. The `std::map` `slots_` is the
list of its entries in ascending key order, which is the order in which a
range-`for` visits them; a slot is a value of `F`. -/
structure signal_slot (F : Type) where
  slots_ : List (Int × F)
  current_id_ : Int

/-- Models the constructor `signal_slot()`. -/
def signal_slot.init {F : Type} : signal_slot F :=
  { slots_ := [], current_id_ := 0 }

/-- Models `std::map::insert(std::make_pair(k, v))`: the entry goes to its
place in key order; when the key is already present the map is unchanged. -/
def map_insert {F : Type} (k : Int) (v : F) : List (Int × F) → List (Int × F)
  | [] => [(k, v)]
  | e :: rest =>
    if k < e.1 then (k, v) :: e :: rest
    else if k = e.1 then e :: rest
    else e :: map_insert k v rest

/-- Models `std::map::erase(key)`: the entry with that key, if there is one,
is removed. -/
def map_erase {F : Type} (k : Int) : List (Int × F) → List (Int × F)
  | [] => []
  | e :: rest => if e.1 = k then rest else e :: map_erase k rest

/-- Models `signal_slot::connect`: the returned id and the signal afterwards.
The increment `++current_id_` of an `int` equal to `INT_MAX` is undefined
behaviour; the result is then `none`. -/
def signal_slot.connect {F : Type} (s : signal_slot F) (slot : F) :
    Option (Int × signal_slot F) :=
  if s.current_id_ < INT_MAX then
    let current_id_ := s.current_id_ + 1
    some (current_id_,
      { slots_ := map_insert current_id_ slot s.slots_, current_id_ := current_id_ })
  else
    none

/-- Models `signal_slot::disconnect`. -/
def signal_slot.disconnect {F : Type} (s : signal_slot F) (id : Int) : signal_slot F :=
  { s with slots_ := map_erase id s.slots_ }

/-- Models `signal_slot::disconnect_all`. -/
def signal_slot.disconnect_all {F : Type} (s : signal_slot F) : signal_slot F :=
  { s with slots_ := [] }

/-- Models `signal_slot::emit`: the calls it makes, in order, each a slot with
the argument it is called with. Every call has returned before the next one
is made and before `emit` returns. -/
def signal_slot.emit {F A : Type} (s : signal_slot F) (p : A) : List (F × A) :=
  s.slots_.map (fun it => (it.2, p))

/-- One call on a `signal_slot`. -/
inductive SignalCall (F : Type) where
  | connect (slot : F)
  | disconnect (id : Int)
  | disconnect_all

/-- A sequence of calls made one after the other on a signal: the ids that
the `connect` calls return, in call order, and the signal afterwards; `none`
when one of the calls has undefined behaviour. -/
def signal_slot.run {F : Type} :
    List (SignalCall F) → signal_slot F → Option (List Int × signal_slot F)
  | [], s => some ([], s)
  | SignalCall.connect slot :: calls, s =>
    match s.connect slot with
    | none => none
    | some r =>
      match signal_slot.run calls r.2 with
      | none => none
      | some r' => some (r.1 :: r'.1, r'.2)
  | SignalCall.disconnect id :: calls, s => signal_slot.run calls (s.disconnect id)
  | SignalCall.disconnect_all :: calls, s => signal_slot.run calls s.disconnect_all

/-! ## StoppableTask.h -/

/-- The data members of `Stoppable`: the promise `exitSignal` and the future
`futureObj` obtained from it share one state, which either holds the value
set by `set_value()` or does not. -/
structure Stoppable where
  sharedStateReady : Bool
deriving DecidableEq

/-- Models the constructor `Stoppable()`. -/
def Stoppable.init : Stoppable := { sharedStateReady := false }

/-- Models `Stoppable::stopRequested`: `futureObj.wait_for(0ms)` is `timeout`
exactly when no value has been set; the answer and the object afterwards. -/
def Stoppable.stopRequested (s : Stoppable) : Bool × Stoppable :=
  if s.sharedStateReady = false then (false, s) else (true, s)

/-- Models `Stoppable::stop`: `exitSignal.set_value()` stores the value, and
throws `std::future_error` (promise already satisfied) when one is stored. -/
def Stoppable.stop (s : Stoppable) : Except String Stoppable :=
  if s.sharedStateReady then .error "promise_already_satisfied"
  else .ok { sharedStateReady := true }

/-! ## TransportSocket.h -/

/-- The class `TransportSocket::ClientSocket`, with its descriptor. -/
structure ClientSocket where
  fileDescriptor : Int
deriving DecidableEq

/-- The members `_clientSockets` and `_staleFileDescriptors` of
`TransportSocket`. -/
structure TransportSocket where
  clientSockets : List ClientSocket
  staleFileDescriptors : List Int
deriving DecidableEq

/-- Models `TransportSocket::close(int)`: the erase-remove idiom keeps the
clients with another descriptor in their order, then the descriptor is pushed
on the stale list. -/
def TransportSocket.close (t : TransportSocket) (fileDescriptor : Int) : TransportSocket :=
  { clientSockets :=
      t.clientSockets.filter (fun socket => !decide (socket.fileDescriptor = fileDescriptor))
    staleFileDescriptors := t.staleFileDescriptors ++ [fileDescriptor] }

/-- The stale-connection block at the end of a pass of the loop of
`TransportSocket::listen`: the descriptors handed to `::close`, in order, and
the transport afterwards. -/
def TransportSocket.cleanupStale (t : TransportSocket) : List Int × TransportSocket :=
  (t.staleFileDescriptors, { t with staleFileDescriptors := [] })

/-! ## NetProtocol.h : the connection used for status frames -/

/-- The member `socket_` of `NetProtocol`: the connection it points to, named
by its descriptor, or `none` while it is empty. -/
structure NetProtocol where
  socket_ : Option Int
deriving DecidableEq

/-- Models the constructor `NetProtocol()` as far as `socket_` goes. -/
def NetProtocol.init : NetProtocol := { socket_ := none }

/-- The `onAccept` callback of `NetProtocol::run` for a live connection. -/
def NetProtocol.onAccept (_np : NetProtocol) (socket : Int) : NetProtocol :=
  { socket_ := some socket }

/-- Models `NetProtocol::input_data_consumer`: the frame is written by `xmit`
to the connection `socket_`; `wire` gives, for each descriptor, the buffers
written to that connection. `none` when `socket_` is empty (`socket.lock()`
is then null). -/
def NetProtocol.input_data_consumer (np : NetProtocol) (wire : Int → List (List Nat))
    (cmd_tuple : Nat × Nat × Nat × Nat × Nat) : Option (Int → List (List Nat)) :=
  match np.socket_ with
  | none => none
  | some fd => some (Function.update wire fd (MsgProtocol.xmit (wire fd) cmd_tuple))

/-- The emissions of the controller, delivered one after the other to the
slot that `Elevator::connect_signal_slot` attaches to the controller's
`onNewData_` signal, which is `NetProtocol::input_data_consumer`. -/
def Elevator.deliverStatus (np : NetProtocol) :
    List Emission → (Int → List (List Nat)) → Option (Int → List (List Nat))
  | [], wire => some wire
  | e :: es, wire =>
    match np.input_data_consumer wire e.1 with
    | none => none
    | some wire => Elevator.deliverStatus np es wire

/-! ## Vocabulary of the statements -/

/-- Big-endian value of the eight bytes of `l` from index `k` on. -/
def be64At (l : List Nat) (k : Nat) : Nat :=
  l.getD k 0 * 256 ^ 7 + l.getD (k + 1) 0 * 256 ^ 6 + l.getD (k + 2) 0 * 256 ^ 5 +
    l.getD (k + 3) 0 * 256 ^ 4 + l.getD (k + 4) 0 * 256 ^ 3 + l.getD (k + 5) 0 * 256 ^ 2 +
    l.getD (k + 6) 0 * 256 + l.getD (k + 7) 0

/-- Big-endian value of the two bytes of `l` from index `k` on. -/
def be16At (l : List Nat) (k : Nat) : Nat := l.getD k 0 * 256 + l.getD (k + 1) 0

/-- The class byte of the reply to a packet of at least 21 bytes: `CTRL|ACK`
when the magic byte and the class byte pass the check, else `CTRL|NAK`. -/
def replyClass (packet : List Nat) : Nat :=
  if packet.getD 0 0 = 0x0E ∧ packet.getD 5 0 = 2 then 0xC1 else 0x81

/-- The 21 header and payload bytes of the frame that `xmit` builds. -/
def xmitBody (cmd_tuple : Nat × Nat × Nat × Nat × Nat) : List Nat :=
  [0x0E, 0x03, 0xE8, cmd_tuple.1 / 256 % 256, cmd_tuple.1 % 256, 0x02,
   cmd_tuple.2.1 / 256 % 256, cmd_tuple.2.1 % 256, 0, 23,
   0, 0, 0, 0, 0, 0, 0, 0x0A,
   cmd_tuple.2.2.1, cmd_tuple.2.2.2.1, cmd_tuple.2.2.2.2]

/-- Number of `connect` calls in a sequence of calls. -/
def connectCount {F : Type} : List (SignalCall F) → Nat
  | [] => 0
  | SignalCall.connect _ :: calls => connectCount calls + 1
  | _ :: calls => connectCount calls

/-- The slots that a sequence of calls leaves connected, each with the
ordinal of the `connect` call that registered it, in registration order;
`n` connects were made before and `live` was connected then: a `connect`
adds its slot at the end, `disconnect(id)` drops the slot registered by the
`id`-th connect, `disconnect_all` drops all. -/
def connectedAfter {F : Type} : List (SignalCall F) → Nat → List (Int × F) → List (Int × F)
  | [], _, live => live
  | SignalCall.connect slot :: calls, n, live =>
    connectedAfter calls (n + 1) (live ++ [(((n + 1 : Nat) : Int), slot)])
  | SignalCall.disconnect id :: calls, n, live =>
    connectedAfter calls n (live.filter (fun e => decide (e.1 ≠ id)))
  | SignalCall.disconnect_all :: calls, n, _ => connectedAfter calls n []

/-- Invariant of a `signal_slot` after `n` connects: the counter is `n`, the
keys of `slots_` ascend strictly and none exceeds `n`. -/
def signal_slot.WellFormed {F : Type} (s : signal_slot F) (n : Nat) : Prop :=
  s.current_id_ = (n : Int) ∧ s.slots_.Pairwise (fun a b => a.1 < b.1) ∧
    ∀ e ∈ s.slots_, e.1 ≤ (n : Int)

/-- Repeated polling of a `Stoppable`: the answers of `n` successive calls of
`stopRequested` and the object afterwards. -/
def Stoppable.poll : Nat → Stoppable → List Bool × Stoppable
  | 0, s => ([], s)
  | n + 1, s =>
    ((s.stopRequested).1 :: (Stoppable.poll n (s.stopRequested).2).1,
      (Stoppable.poll n (s.stopRequested).2).2)

/-- One data bit 0 of the reference CRC on the register `x`. -/
def crcStepZero (x : Nat) : Nat := crcRefBit x false

/-! ## Lemmas on the heap insertion -/

section HeapLemmas

variable {α : Type} [DecidableEq α]

theorem set_parent_then_hole_perm (v : List α) (hole parent : Nat) (value : α)
    (hh : hole < v.length) (hp : parent < hole) :
    ((v.set hole (v.getD parent value)).set parent value).Perm (v.set hole value) := by
  have hpl : parent < v.length := by omega
  have hne : hole ≠ parent := by omega
  rw [List.perm_iff_count]
  intro b
  have hD : v.getD parent value = v[parent] := by
    simp [List.getD_eq_getElem?_getD, List.getElem?_eq_getElem hpl]
  rw [hD, List.count_set _ _ _ _ (by simpa using hpl), List.count_set _ _ _ _ hh,
    List.count_set _ _ _ _ hh, List.getElem_set_ne hne]
  have hle : (if v[hole] == b then 1 else 0) ≤ v.count b := by
    split
    · rename_i hb
      have hb2 : v[hole] = b := by simpa using hb
      have : b ∈ v := hb2 ▸ List.getElem_mem hh
      exact List.count_pos_iff.mpr this
    · omega
  split <;> split <;> split <;> omega

theorem push_heap_loop_perm (comp : α → α → Bool) (value : α) :
    ∀ (fuel : Nat) (v : List α) (hole : Nat), hole < v.length →
      (push_heap_loop comp value fuel v hole).Perm (v.set hole value) := by
  intro fuel
  induction fuel with
  | zero => intro v hole _; simp [push_heap_loop]
  | succ n ih =>
    intro v hole hh
    simp only [push_heap_loop]
    split
    · rename_i hc
      have hpos : 0 < hole := by
        simp only [Bool.and_eq_true, decide_eq_true_eq] at hc
        exact hc.1
      have hp : (hole - 1) / 2 < hole := by omega
      have h1 := ih (v.set hole (v.getD ((hole - 1) / 2) value)) ((hole - 1) / 2)
        (by simp; omega)
      exact h1.trans (set_parent_then_hole_perm v hole _ value hh hp)
    · exact List.Perm.refl _

theorem priority_queue_push_perm (comp : α → α → Bool) (c : List α) (x : α) :
    (priority_queue_push comp c x).Perm (x :: c) := by
  unfold priority_queue_push push_heap
  have hlast : (c ++ [x]).getLast? = some x := by simp
  rw [hlast]
  have h := push_heap_loop_perm comp x ((c ++ [x]).length - 1) (c ++ [x])
    ((c ++ [x]).length - 1) (by simp)
  have hset : (c ++ [x]).set ((c ++ [x]).length - 1) x = c ++ [x] := by
    simp [List.set_append]
  rw [hset] at h
  exact h.trans (List.perm_append_comm)

end HeapLemmas


/-! ## Lemmas on the streams and the codec -/

theorem IStream.read_mk (buf : List Nat) (pos n : Nat) (dst : List Nat)
    (h : pos + n ≤ buf.length) :
    IStream.read { buf := buf, pos := pos, fail := false } n dst =
      ((buf.drop pos).take n, { buf := buf, pos := pos + n, fail := false }) := by
  simp [IStream.read]
  omega

theorem IStream.seekg_mk (buf : List Nat) (pos off : Nat) (h : off ≤ buf.length) :
    IStream.seekg { buf := buf, pos := pos, fail := false } off =
      { buf := buf, pos := off, fail := false } := by
  simp [IStream.seekg, h]

theorem getD_take_drop (l : List Nat) (k n i : Nat) (hi : i < n) :
    ((l.drop k).take n).getD i 0 = l.getD (k + i) 0 := by
  simp [List.getD_eq_getElem?_getD, List.getElem?_take, hi]

theorem ntoh64_mem_take_drop (l : List Nat) (k : Nat) :
    ntoh64_mem ((l.drop k).take 8) = be64At l k := by
  simp [ntoh64_mem, be64At, List.range, List.range.loop, getD_take_drop]
  ring

theorem deserialize_header_ok (buf uninit : List Nat) (h : 10 ≤ buf.length) :
    deserialize_header { buf := buf, pos := 0, fail := false } uninit =
      ({ magic := buf.getD 0 0
         tx_node_addr := be16At buf 1
         rx_node_addr := be16At buf 3
         msg_class := buf.getD 5 0
         msg_id := be16At buf 6
         len := be16At buf 8 },
       { buf := buf, pos := 10, fail := false }) := by
  unfold deserialize_header
  rw [IStream.read_mk _ _ _ _ (by omega)]
  simp only []
  rw [IStream.read_mk _ _ _ _ (by omega)]
  simp only []
  rw [IStream.read_mk _ _ _ _ (by omega)]
  simp only []
  rw [IStream.read_mk _ _ _ _ (by omega)]
  simp only []
  rw [IStream.read_mk _ _ _ _ (by omega)]
  simp only []
  rw [IStream.read_mk _ _ _ _ (by omega)]
  simp [ntohs_mem, be16At, getD_take_drop]

theorem deserialize_payload_ok (buf uninit : List Nat) (h : 21 ≤ buf.length) :
    deserialize_payload { buf := buf, pos := 10, fail := false } uninit =
      ({ timetag := be64At buf 10
         command := buf.getD 18 0
         floor_num := buf.getD 19 0
         direction := buf.getD 20 0 },
       { buf := buf, pos := 21, fail := false }) := by
  unfold deserialize_payload
  rw [IStream.read_mk _ _ _ _ (by omega)]
  simp only []
  rw [IStream.read_mk _ _ _ _ (by omega)]
  simp only []
  rw [IStream.read_mk _ _ _ _ (by omega)]
  simp only []
  rw [IStream.read_mk _ _ _ _ (by omega)]
  simp [ntoh64_mem_take_drop, getD_take_drop]

theorem serialize_header_empty (header : msg_hdr_t) :
    serialize_header OStream.empty header =
      { buf := [header.magic] ++ htons_mem header.tx_node_addr ++ htons_mem header.rx_node_addr ++
          [header.msg_class] ++ htons_mem header.msg_id ++ htons_mem header.len
        pos := 10
        fail := false } := by
  simp [serialize_header, OStream.write, OStream.empty, htons_mem]

theorem header_check_own_len (header : msg_hdr_t) :
    header_check header header.len = true ↔ header.magic = 0x0E ∧ header.msg_class = 2 := by
  simp [header_check, MagicValue, MSGTYPE.MSG_DATA]
  by_cases h1 : header.magic = 14 <;> by_cases h2 : header.msg_class = 2 <;> simp [h1, h2]

theorem handle_long (p : Platform) (uh up : List Nat) (sock : List (List Nat)) (packet : List Nat)
    (h : 21 ≤ packet.length) :
    MsgProtocol.handle p uh up sock packet =
      (Request.ctor p (be16At packet 1) (be16At packet 6) (be64At packet 10 : Nat)
          (packet.getD 18 0) (packet.getD 19 0) (packet.getD 20 0) true,
       sock ++ [[packet.getD 0 0] ++ htons_mem (be16At packet 3) ++ htons_mem (be16At packet 1) ++
          [replyClass packet] ++ htons_mem (be16At packet 6) ++ [0, 10]]) := by
  unfold MsgProtocol.handle
  simp only []
  rw [IStream.seekg_mk _ _ _ (by omega), deserialize_header_ok _ _ (by omega)]
  simp only [sizeof_msg_hdr_t]
  rw [IStream.seekg_mk _ _ _ (by omega), deserialize_payload_ok _ _ h, serialize_header_empty]
  have hc := header_check_own_len
    { magic := packet.getD 0 0, tx_node_addr := be16At packet 1, rx_node_addr := be16At packet 3,
      msg_class := packet.getD 5 0, msg_id := be16At packet 6, len := be16At packet 8 }
  dsimp only at hc
  simp only [OStream.str, hc, replyClass]
  have hack : (MSGTYPE.MSG_CTRL ||| MSG_OPTYPE.OP_ACK) % 256 = 0xC1 := by decide
  have hnak : (MSGTYPE.MSG_CTRL ||| MSG_OPTYPE.OP_NAK) % 256 = 0x81 := by decide
  have hlen : htons_mem (1 + 2 + 2 + 1 + 2 + 2) = [0, 10] := by decide
  rw [hack, hnak, hlen]

theorem htons_mem_be16 (a b : Nat) (ha : a < 256) (hb : b < 256) :
    htons_mem (a * 256 + b) = [a, b] := by
  simp only [htons_mem]
  congr 1
  · omega
  · congr 1
    omega

theorem OStream.write_end (buf bytes : List Nat) (pos : Nat) (h : pos = buf.length) :
    OStream.write { buf := buf, pos := pos, fail := false } bytes =
      { buf := buf ++ bytes, pos := pos + bytes.length, fail := false } := by
  subst h
  simp [OStream.write]

theorem OStream.seekp_mk (buf : List Nat) (pos off : Nat) (h : off ≤ buf.length) :
    OStream.seekp { buf := buf, pos := pos, fail := false } off =
      { buf := buf, pos := off, fail := false } := by
  simp [OStream.seekp, h]

theorem serialize_payload_end (buf : List Nat) (pos : Nat) (payload : msg_payload_t)
    (h : pos = buf.length) :
    serialize_payload { buf := buf, pos := pos, fail := false } payload =
      { buf := buf ++ htonll_mem payload.timetag ++
          [payload.command, payload.floor_num, payload.direction]
        pos := pos + 11
        fail := false } := by
  have h8 : (htonll_mem payload.timetag).length = 8 := by simp [htonll_mem]
  unfold serialize_payload
  simp only []
  rw [OStream.write_end _ _ _ h, OStream.write_end _ _ _ (by simp [h]),
    OStream.write_end _ _ _ (by simp [h]; omega), OStream.write_end _ _ _ (by simp [h]; omega)]
  simp [h8, Nat.add_assoc]

theorem xmit_eq (sock : List (List Nat)) (cmd_tuple : Nat × Nat × Nat × Nat × Nat) :
    MsgProtocol.xmit sock cmd_tuple =
      sock ++ [xmitBody cmd_tuple ++ htons_mem (crc16 (xmitBody cmd_tuple))] := by
  obtain ⟨node, msgId, cmd, floor, dir⟩ := cmd_tuple
  have h8 : htonll_mem 0xa = [0, 0, 0, 0, 0, 0, 0, 0x0A] := by decide
  have hbody : [MagicValue] ++ htons_mem NODE_ADDRESS ++ htons_mem node ++ [0x02] ++
      htons_mem msgId ++ htons_mem 23 ++ htonll_mem 0xa ++ [cmd, floor, dir] =
      xmitBody (node, msgId, cmd, floor, dir) := by
    rw [h8]
    rfl
  unfold MsgProtocol.xmit
  simp only [sizeof_msg_hdr_t, sizeof_msg_payload_t]
  rw [serialize_header_empty, OStream.seekp_mk _ _ _ (by simp [htons_mem]),
    serialize_payload_end _ _ _ (by simp [htons_mem])]
  simp only [OStream.str]
  rw [hbody, OStream.seekp_mk _ _ _ (by simp [xmitBody]), serialize_crc16,
    OStream.write_end _ _ _ (by simp [xmitBody])]

/-! ## Classification of CALL requests -/

/-- C1. A CALL (command 1) with direction UP and floor at or above the car
location, or with direction DOWN and floor at or below it, appends exactly one
request for that floor at the back of `currentQueue_` and leaves every other
member of the scheduler, `upQueue_` and `downQueue_` included, unchanged. -/
theorem call_reachable_appends_to_currentQueue (p : Platform) (now : Int)
    (s : ElevatorCtrl) (node_addr msg_id floor direction : Nat)
    (h : (direction = Request.Direction.UP ∧ floor ≥ s.location_) ∨
         (direction = Request.Direction.DOWN ∧ floor ≤ s.location_)) :
    s.input_data_consumer p now (node_addr, msg_id, 1, floor, direction) =
      .ok { s with currentQueue_ := s.currentQueue_ ++
              [{ node_addr_ := node_addr, time_ := toLong p now, msg_id_ := msg_id,
                 cmd_ := 0, floor_ := floor, direction_ := direction, ok_ := true }] } := by
  rcases h with ⟨hd, hf⟩ | ⟨hd, hf⟩
  · subst hd
    simp [ElevatorCtrl.input_data_consumer, ElevatorCtrl.call, Request.ctor, hf]
  · subst hd
    simp [ElevatorCtrl.input_data_consumer, ElevatorCtrl.call, Request.ctor, hf]

/-- Witness of C1: a CALL for floor 5, UP, with the car at floor 0. -/
theorem call_reachable_appends_to_currentQueue_witness :
    ElevatorCtrl.init.input_data_consumer Platform.LP64 1000 (7, 1, 1, 5, 1) =
      .ok { ElevatorCtrl.init with currentQueue_ := ElevatorCtrl.init.currentQueue_ ++
              [{ node_addr_ := 7, time_ := toLong Platform.LP64 1000, msg_id_ := 1,
                 cmd_ := 0, floor_ := 5, direction_ := 1, ok_ := true }] } :=
  call_reachable_appends_to_currentQueue Platform.LP64 1000 ElevatorCtrl.init 7 1 5 1
    (Or.inl ⟨rfl, by decide⟩)

/-- C2. A CALL with direction UP and floor below the car location pushes the
request on `upQueue_` (the queue then holds exactly the old requests and the
new one) and leaves `currentQueue_`, `downQueue_` and the car unchanged; a CALL
with direction DOWN and floor above the car location does the same with
`downQueue_`, leaving `currentQueue_` and `upQueue_` unchanged. -/
theorem call_deferred_pushes_on_priority_queue (p : Platform) (now : Int)
    (s : ElevatorCtrl) (node_addr msg_id floor direction : Nat)
    (h : (direction = Request.Direction.UP ∧ floor < s.location_) ∨
         (direction = Request.Direction.DOWN ∧ floor > s.location_)) :
    let r : Request :=
      { node_addr_ := node_addr, time_ := toLong p now, msg_id_ := msg_id,
        cmd_ := 0, floor_ := floor, direction_ := direction, ok_ := true }
    (direction = Request.Direction.UP →
      s.input_data_consumer p now (node_addr, msg_id, 1, floor, direction) =
          .ok { s with upQueue_ := priority_queue_push upComparator s.upQueue_ r } ∧
        (priority_queue_push upComparator s.upQueue_ r).Perm (r :: s.upQueue_)) ∧
    (direction = Request.Direction.DOWN →
      s.input_data_consumer p now (node_addr, msg_id, 1, floor, direction) =
          .ok { s with downQueue_ := priority_queue_push downComparator s.downQueue_ r } ∧
        (priority_queue_push downComparator s.downQueue_ r).Perm (r :: s.downQueue_)) := by
  intro r
  rcases h with ⟨hd, hf⟩ | ⟨hd, hf⟩
  · subst hd
    refine ⟨fun _ => ⟨?_, priority_queue_push_perm _ _ _⟩, fun hc => absurd hc (by decide)⟩
    have hf2 : ¬ s.location_ ≤ floor := by omega
    simp [ElevatorCtrl.input_data_consumer, ElevatorCtrl.call, Request.ctor, hf2, r]
  · subst hd
    refine ⟨fun hc => absurd hc (by decide), fun _ => ⟨?_, priority_queue_push_perm _ _ _⟩⟩
    have hf2 : ¬ floor ≤ s.location_ := by omega
    simp [ElevatorCtrl.input_data_consumer, ElevatorCtrl.call, Request.ctor, hf2, r]

/-- Witness of C2: a CALL for floor 2, UP, with the car at floor 5. -/
theorem call_deferred_pushes_on_priority_queue_witness :
    ({ ElevatorCtrl.init with location_ := 5 } : ElevatorCtrl).input_data_consumer
        Platform.LP64 1000 (7, 1, 1, 2, 1) =
      .ok { ElevatorCtrl.init with
            location_ := 5
            upQueue_ := [{ node_addr_ := 7, time_ := 1000, msg_id_ := 1, cmd_ := 0, floor_ := 2,
                           direction_ := 1, ok_ := true }] } :=
  ((call_deferred_pushes_on_priority_queue Platform.LP64 1000
      { ElevatorCtrl.init with location_ := 5 } 7 1 2 1 (Or.inl ⟨rfl, by decide⟩)).1 rfl).1

/-! ## Wire protocol: inbound frames -/

theorem getD_lt_of_bytes (packet : List Nat) (hb : ∀ b ∈ packet, b < 256) (i : Nat) :
    packet.getD i 0 < 256 := by
  by_cases hi : i < packet.length
  · rw [List.getD_eq_getElem _ _ hi]
    exact hb _ (List.getElem_mem hi)
  · rw [List.getD_eq_default _ _ (by omega)]
    decide

theorem toLong_of_le_LONG_MAX (p : Platform) (x : Nat) (hx : (x : Int) ≤ LONG_MAX p) :
    toLong p (x : Int) = x := by
  cases p <;> simp [toLong, LONG_MAX, Platform.longBits] at hx ⊢ <;> omega

theorem xmitBody_length (t : Nat × Nat × Nat × Nat × Nat) : (xmitBody t).length = 21 := rfl

theorem getD_xmit_frame (t : Nat × Nat × Nat × Nat × Nat) (tail : List Nat) (i : Nat)
    (hi : i < 21) : (xmitBody t ++ tail).getD i 0 = (xmitBody t).getD i 0 :=
  List.getD_append _ _ _ _ (by rw [xmitBody_length]; exact hi)

theorem be16At_xmit_frame (t : Nat × Nat × Nat × Nat × Nat) (tail : List Nat) (k : Nat)
    (hk : k + 1 < 21) : be16At (xmitBody t ++ tail) k = be16At (xmitBody t) k := by
  unfold be16At
  rw [getD_xmit_frame t tail k (by omega), getD_xmit_frame t tail (k + 1) hk]

theorem replyClass_xmit_frame (t : Nat × Nat × Nat × Nat × Nat) (tail : List Nat) :
    replyClass (xmitBody t ++ tail) = 0xC1 := by
  unfold replyClass
  rw [getD_xmit_frame t tail 0 (by decide), getD_xmit_frame t tail 5 (by decide)]
  rfl

/-- C3. Round trip: the frame that `xmit` writes for a tuple
`(node, msgId, command, floor, direction)` with a 16-bit `msgId` passes the
header check of `handle` (which answers `CTRL|ACK`), and the `Request` that
`handle` returns for it has the same command, floor and direction, and
message id `msgId`. -/
theorem xmit_handle_roundtrip (p : Platform) (uh up : List Nat) (out inb : List (List Nat))
    (node msgId command floor direction : Nat) (hid : msgId < 65536) :
    ∃ frame reply,
      MsgProtocol.xmit out (node, msgId, command, floor, direction) = out ++ [frame] ∧
      header_check (deserialize_header { buf := frame, pos := 0, fail := false } uh).1
        (deserialize_header { buf := frame, pos := 0, fail := false } uh).1.len = true ∧
      (MsgProtocol.handle p uh up inb frame).2 = inb ++ [reply] ∧
      reply.getD 5 0 = 0xC1 ∧
      (MsgProtocol.handle p uh up inb frame).1.cmd_ = command ∧
      (MsgProtocol.handle p uh up inb frame).1.floor_ = floor ∧
      (MsgProtocol.handle p uh up inb frame).1.direction_ = direction ∧
      (MsgProtocol.handle p uh up inb frame).1.msg_id_ = msgId := by
  generalize ht : (node, msgId, command, floor, direction) = t
  generalize htail : htons_mem (crc16 (xmitBody t)) = tail
  have hlen : 21 ≤ (xmitBody t ++ tail).length := by
    rw [List.length_append, xmitBody_length]
    omega
  have hx : MsgProtocol.xmit out t = out ++ [xmitBody t ++ tail] := by
    rw [xmit_eq, htail]
  have h18 : (xmitBody t ++ tail).getD 18 0 = command := by
    rw [getD_xmit_frame t tail 18 (by decide), ← ht]
    rfl
  have h19 : (xmitBody t ++ tail).getD 19 0 = floor := by
    rw [getD_xmit_frame t tail 19 (by decide), ← ht]
    rfl
  have h20 : (xmitBody t ++ tail).getD 20 0 = direction := by
    rw [getD_xmit_frame t tail 20 (by decide), ← ht]
    rfl
  have h6 : be16At (xmitBody t ++ tail) 6 = msgId := by
    rw [be16At_xmit_frame t tail 6 (by decide), ← ht]
    show msgId / 256 % 256 * 256 + msgId % 256 = msgId
    omega
  have hh := handle_long p uh up inb (xmitBody t ++ tail) hlen
  refine ⟨xmitBody t ++ tail,
    [(xmitBody t ++ tail).getD 0 0] ++ htons_mem (be16At (xmitBody t ++ tail) 3) ++
      htons_mem (be16At (xmitBody t ++ tail) 1) ++ [replyClass (xmitBody t ++ tail)] ++
      htons_mem (be16At (xmitBody t ++ tail) 6) ++ [0, 10],
    hx, ?_, ?_⟩
  · rw [deserialize_header_ok _ _ (by omega), header_check_own_len]
    refine ⟨?_, ?_⟩
    · show (xmitBody t ++ tail).getD 0 0 = 0x0E
      rw [getD_xmit_frame t tail 0 (by decide)]
      rfl
    · show (xmitBody t ++ tail).getD 5 0 = 2
      rw [getD_xmit_frame t tail 5 (by decide)]
      rfl
  · rw [hh]
    refine ⟨rfl, ?_, h18, h19, h20, h6⟩
    rw [replyClass_xmit_frame]
    simp [htons_mem]

/-- Witness of C3: the status tuple `(7, 258, 3, 5, 1)`. -/
theorem xmit_handle_roundtrip_witness :
    ∃ frame reply,
      MsgProtocol.xmit [] (7, 258, 3, 5, 1) = [] ++ [frame] ∧
      header_check (deserialize_header { buf := frame, pos := 0, fail := false } []).1
        (deserialize_header { buf := frame, pos := 0, fail := false } []).1.len = true ∧
      (MsgProtocol.handle Platform.LLP64 [] [] [] frame).2 = [] ++ [reply] ∧
      reply.getD 5 0 = 0xC1 ∧
      (MsgProtocol.handle Platform.LLP64 [] [] [] frame).1.cmd_ = 3 ∧
      (MsgProtocol.handle Platform.LLP64 [] [] [] frame).1.floor_ = 5 ∧
      (MsgProtocol.handle Platform.LLP64 [] [] [] frame).1.direction_ = 1 ∧
      (MsgProtocol.handle Platform.LLP64 [] [] [] frame).1.msg_id_ = 258 :=
  xmit_handle_roundtrip Platform.LLP64 [] [] [] [] 7 258 3 5 1 (by decide)

/-- C4, the code at the failing inputs: three 21-byte packets with magic
`0x0E`, class `0x02` and length fields 0, 5 and 65535 are each answered with
class `CTRL|ACK = 0xC1`, not with `CTRL|NAK = 0x81`: `handle` passes the
header's own length to `header_check` as the expected length. -/
theorem handle_acks_wrong_length_field :
    (MsgProtocol.handle Platform.LLP64 [] [] []
        [0x0E, 0, 1, 3, 0xE8, 0x02, 0, 7, 0, 0, 0, 0, 0, 0, 0, 0, 0, 9, 1, 5, 1]).2 =
      [[0x0E, 3, 0xE8, 0, 1, 0xC1, 0, 7, 0, 10]] ∧
    (MsgProtocol.handle Platform.LLP64 [] [] []
        [0x0E, 0, 1, 3, 0xE8, 0x02, 0, 7, 0, 5, 0, 0, 0, 0, 0, 0, 0, 9, 1, 5, 1]).2 =
      [[0x0E, 3, 0xE8, 0, 1, 0xC1, 0, 7, 0, 10]] ∧
    (MsgProtocol.handle Platform.LLP64 [] [] []
        [0x0E, 0, 1, 3, 0xE8, 0x02, 0, 7, 0xFF, 0xFF, 0, 0, 0, 0, 0, 0, 0, 9, 1, 5, 1]).2 =
      [[0x0E, 3, 0xE8, 0, 1, 0xC1, 0, 7, 0, 10]] := by
  decide

/-- C5, the code at the failing input: a 21-byte packet with magic `0x00`
(class DATA, command CALL, floor 5, direction UP) is answered with
`CTRL|NAK`, and still `handle` returns a `Request` marked `ok_`, the read
callback emits its tuple, and the scheduler appends it to `currentQueue_`. -/
theorem nak_frame_still_enqueued :
    (MsgProtocol.handle Platform.LLP64 [] [] []
        [0x00, 0, 1, 3, 0xE8, 0x02, 0, 7, 0, 23, 0, 0, 0, 0, 0, 0, 0, 9, 1, 5, 1]) =
      ({ node_addr_ := 1, time_ := 9, msg_id_ := 7, cmd_ := 1, floor_ := 5, direction_ := 1,
         ok_ := true },
       [[0x00, 3, 0xE8, 0, 1, 0x81, 0, 7, 0, 10]]) ∧
    (NetProtocol.onRead Platform.LLP64 [] [] []
        [0x00, 0, 1, 3, 0xE8, 0x02, 0, 7, 0, 23, 0, 0, 0, 0, 0, 0, 0, 9, 1, 5, 1]).2 =
      (1, 7, 1, 5, 1) ∧
    (Elevator.onRead Platform.LLP64 1000 [] [] ElevatorCtrl.init []
        [0x00, 0, 1, 3, 0xE8, 0x02, 0, 7, 0, 23, 0, 0, 0, 0, 0, 0, 0, 9, 1, 5, 1]).2 =
      .ok { ElevatorCtrl.init with
            currentQueue_ := [{ node_addr_ := 1, time_ := 1000, msg_id_ := 7, cmd_ := 0,
                                floor_ := 5, direction_ := 1, ok_ := true }] } := by
  refine ⟨by decide, by decide, by rfl⟩

/-- C6. For every packet of at least 21 bytes whose first byte is not `0x0E`,
`handle` writes a 10-byte reply whose class byte (index 5) is
`CTRL|NAK = 0x81`, whatever the other bytes are. -/
theorem handle_naks_bad_magic (p : Platform) (uh up : List Nat) (sock : List (List Nat))
    (packet : List Nat) (h : 21 ≤ packet.length) (hm : packet.getD 0 0 ≠ 0x0E) :
    ∃ reply, (MsgProtocol.handle p uh up sock packet).2 = sock ++ [reply] ∧
      reply.length = 10 ∧ reply.getD 5 0 = 0x81 := by
  rw [handle_long _ _ _ _ _ h]
  refine ⟨_, rfl, rfl, ?_⟩
  show replyClass packet = 0x81
  unfold replyClass
  rw [if_neg (fun hh => hm hh.1)]

/-- Witness of C6: an otherwise well-formed frame with magic `0x0F`. -/
theorem handle_naks_bad_magic_witness :
    ∃ reply, (MsgProtocol.handle Platform.LLP64 [] [] []
        [0x0F, 0, 1, 3, 0xE8, 0x02, 0, 7, 0, 23, 0, 0, 0, 0, 0, 0, 0, 9, 1, 5, 1]).2 =
          [] ++ [reply] ∧
      reply.length = 10 ∧ reply.getD 5 0 = 0x81 :=
  handle_naks_bad_magic Platform.LLP64 [] [] []
    [0x0F, 0, 1, 3, 0xE8, 0x02, 0, 7, 0, 23, 0, 0, 0, 0, 0, 0, 0, 9, 1, 5, 1]
    (by decide) (by decide)

/-- C7. For every packet of at least 21 bytes whose class byte does not have
message type DATA (bits 5-0 of byte 5 differ from 2), `handle` writes a
10-byte reply whose class byte is `CTRL|NAK = 0x81`. -/
theorem handle_naks_non_data_class (p : Platform) (uh up : List Nat) (sock : List (List Nat))
    (packet : List Nat) (h : 21 ≤ packet.length)
    (hc : packet.getD 5 0 &&& 0x3F ≠ MSGTYPE.MSG_DATA) :
    ∃ reply, (MsgProtocol.handle p uh up sock packet).2 = sock ++ [reply] ∧
      reply.length = 10 ∧ reply.getD 5 0 = 0x81 := by
  rw [handle_long _ _ _ _ _ h]
  refine ⟨_, rfl, rfl, ?_⟩
  have hne : packet.getD 5 0 ≠ 2 := by
    intro h2
    rw [h2] at hc
    exact hc (by decide)
  show replyClass packet = 0x81
  unfold replyClass
  rw [if_neg (fun hh => hne hh.2)]

/-- Witness of C7: a frame with magic `0x0E` and class `0x01` (CTRL). -/
theorem handle_naks_non_data_class_witness :
    ∃ reply, (MsgProtocol.handle Platform.LLP64 [] [] []
        [0x0E, 0, 1, 3, 0xE8, 0x01, 0, 7, 0, 23, 0, 0, 0, 0, 0, 0, 0, 9, 1, 5, 1]).2 =
          [] ++ [reply] ∧
      reply.length = 10 ∧ reply.getD 5 0 = 0x81 :=
  handle_naks_non_data_class Platform.LLP64 [] [] []
    [0x0E, 0, 1, 3, 0xE8, 0x01, 0, 7, 0, 23, 0, 0, 0, 0, 0, 0, 0, 9, 1, 5, 1]
    (by decide) (by decide)

/-- C8 as stated fails: for the frame with magic `0x0E`, class `0x02`, length
field 23 (and likewise 21) and time tag bytes `80 00 00 00 00 00 00 00`, the
big-endian value of bytes 10..17 is `2 ^ 63`, but the returned `Request` has
time 0 where `long` has 32 bits and `-2 ^ 63` where it has 64. -/
theorem handle_time_not_timetag :
    (be64At [0x0E, 0, 1, 3, 0xE8, 0x02, 0, 7, 0, 23, 0x80, 0, 0, 0, 0, 0, 0, 0, 1, 5, 1, 0, 0] 10
      : Int) = 2 ^ 63 ∧
    (MsgProtocol.handle Platform.LLP64 [] [] []
      [0x0E, 0, 1, 3, 0xE8, 0x02, 0, 7, 0, 23, 0x80, 0, 0, 0, 0, 0, 0, 0, 1, 5, 1, 0, 0]).1.time_
      = 0 ∧
    (MsgProtocol.handle Platform.LP64 [] [] []
      [0x0E, 0, 1, 3, 0xE8, 0x02, 0, 7, 0, 23, 0x80, 0, 0, 0, 0, 0, 0, 0, 1, 5, 1, 0, 0]).1.time_
      = -2 ^ 63 ∧
    (MsgProtocol.handle Platform.LLP64 [] [] []
      [0x0E, 0, 1, 3, 0xE8, 0x02, 0, 7, 0, 21, 0x80, 0, 0, 0, 0, 0, 0, 0, 1, 5, 1, 0, 0]).1.time_
      = 0 ∧
    (MsgProtocol.handle Platform.LP64 [] [] []
      [0x0E, 0, 1, 3, 0xE8, 0x02, 0, 7, 0, 21, 0x80, 0, 0, 0, 0, 0, 0, 0, 1, 5, 1, 0, 0]).1.time_
      = -2 ^ 63 := by
  decide

/-- C8, amended. For every packet of at least 21 bytes with magic `0x0E`,
class `0x02` and length field 23 (the size of the frame with its CRC, the
value that `xmit` writes), `handle` writes a 10-byte reply with class byte
`CTRL|ACK = 0xC1` and returns a `Request` with node address the frame's tx
address, message id the frame's message id, command byte 18, floor byte 19,
direction byte 20, and time the big-endian value of bytes 10..17 whenever
that value does not exceed `LONG_MAX`. -/
theorem handle_acks_valid_frame (p : Platform) (uh up : List Nat) (sock : List (List Nat))
    (packet : List Nat) (h : 21 ≤ packet.length)
    (hm : packet.getD 0 0 = 0x0E) (hc : packet.getD 5 0 = 0x02)
    (_hl : be16At packet 8 = 23) :
    (∃ reply, (MsgProtocol.handle p uh up sock packet).2 = sock ++ [reply] ∧
      reply.length = 10 ∧ reply.getD 5 0 = 0xC1) ∧
    (MsgProtocol.handle p uh up sock packet).1.node_addr_ = be16At packet 1 ∧
    (MsgProtocol.handle p uh up sock packet).1.msg_id_ = be16At packet 6 ∧
    (MsgProtocol.handle p uh up sock packet).1.cmd_ = packet.getD 18 0 ∧
    (MsgProtocol.handle p uh up sock packet).1.floor_ = packet.getD 19 0 ∧
    (MsgProtocol.handle p uh up sock packet).1.direction_ = packet.getD 20 0 ∧
    ((be64At packet 10 : Int) ≤ LONG_MAX p →
      (MsgProtocol.handle p uh up sock packet).1.time_ = be64At packet 10) := by
  rw [handle_long _ _ _ _ _ h]
  refine ⟨⟨_, rfl, rfl, ?_⟩, rfl, rfl, rfl, rfl, rfl, ?_⟩
  · show replyClass packet = 0xC1
    unfold replyClass
    rw [if_pos ⟨hm, hc⟩]
  · intro hle
    exact toLong_of_le_LONG_MAX p _ hle

/-- Witness of C8 (amended): a frame with length field 23 and time tag 9. -/
theorem handle_acks_valid_frame_witness :
    be16At [0x0E, 0, 1, 3, 0xE8, 0x02, 0, 7, 0, 23, 0, 0, 0, 0, 0, 0, 0, 9, 1, 5, 1] 8 = 23 ∧
    (∃ reply, (MsgProtocol.handle Platform.LLP64 [] [] []
        [0x0E, 0, 1, 3, 0xE8, 0x02, 0, 7, 0, 23, 0, 0, 0, 0, 0, 0, 0, 9, 1, 5, 1]).2 =
          [] ++ [reply] ∧
      reply.length = 10 ∧ reply.getD 5 0 = 0xC1) ∧
    (MsgProtocol.handle Platform.LLP64 [] [] []
        [0x0E, 0, 1, 3, 0xE8, 0x02, 0, 7, 0, 23, 0, 0, 0, 0, 0, 0, 0, 9, 1, 5, 1]).1.time_ = 9 :=
  have w := handle_acks_valid_frame Platform.LLP64 [] [] []
    [0x0E, 0, 1, 3, 0xE8, 0x02, 0, 7, 0, 23, 0, 0, 0, 0, 0, 0, 0, 9, 1, 5, 1]
    (by decide) (by decide) (by decide) (by decide)
  ⟨by decide, w.1, w.2.2.2.2.2.2 (by decide)⟩

/-- C9. For every packet of at least 21 bytes, `handle` writes exactly one
buffer to the connection, and it is the ten bytes: the first byte of the
packet as it came in (not `MagicValue`: when the packet starts with another
byte, so does the reply), the packet's rx address bytes, the packet's tx
address bytes, the class `CTRL|ACK` or `CTRL|NAK`, the packet's message id
bytes, and `00 0A`. Read back as a header in network byte order it has the
inbound rx address as tx address, the inbound tx address as rx address, the
inbound message id and length 10. -/
theorem handle_writes_one_reply (p : Platform) (uh up : List Nat) (sock : List (List Nat))
    (packet : List Nat) (h : 21 ≤ packet.length) (hb : ∀ b ∈ packet, b < 256) :
    ∃ reply, (MsgProtocol.handle p uh up sock packet).2 = sock ++ [reply] ∧
      reply = [packet.getD 0 0, packet.getD 3 0, packet.getD 4 0, packet.getD 1 0,
               packet.getD 2 0, replyClass packet, packet.getD 6 0, packet.getD 7 0, 0, 10] ∧
      (reply.getD 0 0 = MagicValue ↔ packet.getD 0 0 = MagicValue) ∧
      (replyClass packet = 0xC1 ∨ replyClass packet = 0x81) ∧
      (deserialize_header { buf := reply, pos := 0, fail := false } []).1 =
        { magic := packet.getD 0 0
          tx_node_addr := be16At packet 3
          rx_node_addr := be16At packet 1
          msg_class := replyClass packet
          msg_id := be16At packet 6
          len := 10 } := by
  rw [handle_long _ _ _ _ _ h]
  have e1 := htons_mem_be16 _ _ (getD_lt_of_bytes packet hb 1) (getD_lt_of_bytes packet hb 2)
  have e3 := htons_mem_be16 _ _ (getD_lt_of_bytes packet hb 3) (getD_lt_of_bytes packet hb 4)
  have e6 := htons_mem_be16 _ _ (getD_lt_of_bytes packet hb 6) (getD_lt_of_bytes packet hb 7)
  have hr : [packet.getD 0 0] ++ htons_mem (be16At packet 3) ++ htons_mem (be16At packet 1) ++
      [replyClass packet] ++ htons_mem (be16At packet 6) ++ [0, 10] =
      [packet.getD 0 0, packet.getD 3 0, packet.getD 4 0, packet.getD 1 0,
        packet.getD 2 0, replyClass packet, packet.getD 6 0, packet.getD 7 0, 0, 10] := by
    simp only [be16At, e1, e3, e6]
    rfl
  rw [hr]
  refine ⟨_, rfl, rfl, Iff.rfl, ?_, ?_⟩
  · unfold replyClass
    split
    · exact Or.inl rfl
    · exact Or.inr rfl
  · rw [deserialize_header_ok [packet.getD 0 0, packet.getD 3 0, packet.getD 4 0,
      packet.getD 1 0, packet.getD 2 0, replyClass packet, packet.getD 6 0, packet.getD 7 0,
      0, 10] [] (Nat.le_refl 10)]
    simp only [be16At, List.getD_cons_succ, List.getD_cons_zero]

/-- Witness of C9: a 23-byte frame that starts with `0x00` instead of
`MagicValue`; the reply starts with `0x00` as well. -/
theorem handle_writes_one_reply_witness :
    ∃ reply, (MsgProtocol.handle Platform.LLP64 [] [] []
        [0x00, 0, 1, 3, 0xE8, 0x02, 0, 7, 0, 23, 0, 0, 0, 0, 0, 0, 0, 9, 1, 5, 1, 0xAB, 0xCD]).2 =
          [] ++ [reply] ∧
      reply = [0x00, 3, 0xE8, 0, 1, 0x81, 0, 7, 0, 10] :=
  have w := handle_writes_one_reply Platform.LLP64 [] [] []
    [0x00, 0, 1, 3, 0xE8, 0x02, 0, 7, 0, 23, 0, 0, 0, 0, 0, 0, 0, 9, 1, 5, 1, 0xAB, 0xCD]
    (by decide) (by decide)
  w.elim fun reply hr => ⟨reply, hr.1, hr.2.1⟩

/-! ## Checksum -/

theorem crc16_bit_eq (crc c : Nat) (h : crc < 65536) :
    (crc16_bit (crc, c)).1 = crcRefBit crc (c.testBit 0) ∧ (crc16_bit (crc, c)).1 < 65536 ∧
      (crc16_bit (crc, c)).2 = c >>> 1 := by
  have hx : (crc / 2) ^^^ 0x8408 < 65536 :=
    Nat.xor_lt_two_pow (n := 16) (by omega) (by decide)
  have hs : crc >>> 1 = crc / 2 := by simp [Nat.shiftRight_eq_div_pow]
  simp only [crc16_bit, crcRefBit, POLY, hs, Nat.and_one_is_mod, Nat.testBit_zero]
  rcases Nat.mod_two_eq_zero_or_one crc with h1 | h1 <;>
    rcases Nat.mod_two_eq_zero_or_one c with h2 | h2 <;>
    simp [h1, h2, Nat.mod_eq_of_lt hx] <;> omega

theorem crc16_bit_iterate (c : Nat) :
    ∀ (k crc : Nat), crc < 65536 →
      crc16_bit^[k] (crc, c) =
          ((List.range k).foldl (fun r i => crcRefBit r (c.testBit i)) crc, c >>> k) ∧
        (crc16_bit^[k] (crc, c)).1 < 65536 := by
  intro k
  induction k with
  | zero => intro crc h; simp [h]
  | succ n ih =>
    intro crc h
    obtain ⟨e, hlt⟩ := ih crc h
    rw [Function.iterate_succ_apply', e]
    rw [e] at hlt
    obtain ⟨e1, e2, e3⟩ := crc16_bit_eq _ (c >>> n) hlt
    refine ⟨?_, e2⟩
    rw [List.range_succ, List.foldl_append]
    apply Prod.ext
    · simp only [List.foldl_cons, List.foldl_nil]
      rw [e1, Nat.testBit_shiftRight]
      simp
    · simp only
      rw [e3, ← Nat.shiftRight_add]

theorem foldl_congr_mem {β γ : Type} (f g : β → γ → β) :
    ∀ (l : List γ) (a : β), (∀ i ∈ l, ∀ r, f r i = g r i) → l.foldl f a = l.foldl g a := by
  intro l
  induction l with
  | nil => intro a _; rfl
  | cons x xs ih =>
    intro a h
    simp only [List.foldl_cons]
    rw [h x (List.mem_cons_self _ _) a]
    exact ih _ (fun i hi r => h i (List.mem_cons_of_mem _ hi) r)

theorem testBit_low_byte (b i : Nat) (hi : i < 8) : (0xFF &&& b).testBit i = b.testBit i := by
  have h255 : (0xFF : Nat).testBit i = true := by
    have := Nat.testBit_two_pow_sub_one 8 i
    simpa [hi] using this
  rw [Nat.testBit_and, h255, Bool.true_and]

theorem crc16_byte_eq (crc b : Nat) (h : crc < 65536) :
    crc16_byte crc b = crcRefByte crc b ∧ crc16_byte crc b < 65536 := by
  obtain ⟨e, hlt⟩ := crc16_bit_iterate (0xFF &&& b) 8 crc h
  refine ⟨?_, hlt⟩
  unfold crc16_byte crcRefByte
  rw [e]
  apply foldl_congr_mem
  intro i hi r
  rw [testBit_low_byte b i (by simpa using hi)]

theorem crc16_register_eq :
    ∀ (data : List Nat) (crc : Nat), crc < 65536 →
      data.foldl crc16_byte crc = data.foldl crcRefByte crc ∧
        data.foldl crc16_byte crc < 65536 := by
  intro data
  induction data with
  | nil => intro crc h; exact ⟨rfl, h⟩
  | cons b bs ih =>
    intro crc h
    obtain ⟨e, hlt⟩ := crc16_byte_eq crc b h
    simp only [List.foldl_cons]
    obtain ⟨e2, hlt2⟩ := ih _ hlt
    rw [e2, e]
    exact ⟨rfl, e ▸ e2 ▸ hlt2⟩

theorem complement16 (r : Nat) (h : r < 65536) :
    (r ^^^ 0xFFFFFFFF) &&& 0xFFFF = 0xFFFF - r := by
  apply Nat.eq_of_testBit_eq
  intro i
  have h32 : (0xFFFFFFFF : Nat).testBit i = decide (i < 32) := Nat.testBit_two_pow_sub_one 32 i
  have h16 : (0xFFFF : Nat).testBit i = decide (i < 16) := Nat.testBit_two_pow_sub_one 16 i
  have hsub : (0xFFFF - r).testBit i = (decide (i < 16) && !r.testBit i) := by
    have he : 0xFFFF - r = 2 ^ 16 - (r + 1) := by omega
    rw [he]
    exact Nat.testBit_two_pow_sub_succ h i
  rw [Nat.testBit_and, Nat.testBit_xor, h32, h16, hsub]
  by_cases hi : i < 16
  · have hi2 : i < 32 := by omega
    simp [hi, hi2]
  · simp [hi]

theorem swap16 (c : Nat) (h : c < 65536) :
    (((c <<< 8) ||| ((c >>> 8) &&& 0xFF)) % 65536) &&& 0xFFFF = (c % 256) * 256 + c / 256 := by
  have h1 : c <<< 8 = 2 ^ 8 * c := by rw [Nat.shiftLeft_eq, Nat.mul_comm]
  have h2 : c >>> 8 = c / 256 := by rw [Nat.shiftRight_eq_div_pow]
  have h3 : (c / 256) &&& 0xFF = c / 256 := by
    have := Nat.and_pow_two_sub_one_eq_mod (c / 256) 8
    rw [show (2 : Nat) ^ 8 - 1 = 0xFF from rfl] at this
    rw [this]
    omega
  have h4 : 2 ^ 8 * c ||| c / 256 = 2 ^ 8 * c + c / 256 :=
    (Nat.mul_add_lt_is_or (i := 8) (by omega) c).symm
  have h5 : ∀ x : Nat, x &&& 0xFFFF = x % 65536 := fun x =>
    Nat.and_pow_two_sub_one_eq_mod x 16
  rw [h1, h2, h3, h4, h5]
  omega

/-- C10. For every byte sequence, `crc16` equals the reference CRC16-CCITT of
the specification: register started at `0xFFFF`; per byte, per bit from the
least significant, shifted right and XORed with `0x8408` exactly when its low
bit differs from the data bit; finally complemented and byte-swapped. -/
theorem crc16_eq_reference (data : List Nat) : crc16 data = crcRef data := by
  obtain ⟨e, hlt⟩ := crc16_register_eq data 0xFFFF (by decide)
  unfold crc16 crcRef crcRefRegister
  simp only []
  rw [← e, complement16 _ hlt, swap16 _ (by omega)]

/-! ## Checksum vectors and outbound frames -/

set_option maxRecDepth 10000 in
/-- C11. Regression vectors: `crc16` of the nine ASCII bytes `"123456789"` is
`0x6E90`, the byte-swap of the CRC-16/X-25 check value `0x906E`, and `crc16`
of the empty byte sequence is `0x0000`. -/
theorem crc16_regression_vectors :
    crc16 [0x31, 0x32, 0x33, 0x34, 0x35, 0x36, 0x37, 0x38, 0x39] = 0x6E90 ∧
    0x6E90 = (0x906E % 256) * 256 + 0x906E / 256 ∧
    crc16 [] = 0x0000 := by
  decide

/-- C12. For every tuple `(node, msgId, code, floor, flag)`, `xmit` writes
exactly one buffer to the connection, laid out as: magic `0x0E`; tx address
`0x03E8` high byte first; `node` high byte first; class `0x02`; `msgId` high
byte first; the length field `00 17`; the time tag `0x0A` as eight bytes, high
byte first; `code`, `floor`, `flag`; and the `crc16` of these 21 bytes, high
byte first. -/
theorem xmit_frame_layout (sock : List (List Nat)) (node msgId code floor flag : Nat) :
    MsgProtocol.xmit sock (node, msgId, code, floor, flag) =
      sock ++
        [[0x0E, 0x03, 0xE8, node / 256 % 256, node % 256, 0x02,
          msgId / 256 % 256, msgId % 256, 0x00, 0x17,
          0, 0, 0, 0, 0, 0, 0, 0x0A, code, floor, flag,
          crc16 [0x0E, 0x03, 0xE8, node / 256 % 256, node % 256, 0x02,
            msgId / 256 % 256, msgId % 256, 0x00, 0x17,
            0, 0, 0, 0, 0, 0, 0, 0x0A, code, floor, flag] / 256 % 256,
          crc16 [0x0E, 0x03, 0xE8, node / 256 % 256, node % 256, 0x02,
            msgId / 256 % 256, msgId % 256, 0x00, 0x17,
            0, 0, 0, 0, 0, 0, 0, 0x0A, code, floor, flag] % 256]] := by
  rw [xmit_eq]
  simp only [xmitBody, htons_mem, List.cons_append, List.nil_append]

/-- C13 as stated fails: in the frame that `xmit` writes for the tuple
`(7, 258, 3, 5, 1)` the length field (bytes 8 and 9, big-endian) is 23, not
the header plus payload byte count `10 + 11 = 21`. -/
theorem xmit_length_field_not_header_plus_payload :
    ∃ frame, MsgProtocol.xmit [] (7, 258, 3, 5, 1) = [frame] ∧
      be16At frame 8 = 23 ∧
      be16At frame 8 ≠ sizeof_msg_hdr_t + sizeof_msg_payload_t := by
  refine ⟨xmitBody (7, 258, 3, 5, 1) ++ htons_mem (crc16 (xmitBody (7, 258, 3, 5, 1))), ?_, ?_, ?_⟩
  · rw [xmit_eq]
    rfl
  · rw [be16At_xmit_frame _ _ 8 (by decide)]
    rfl
  · rw [be16At_xmit_frame _ _ 8 (by decide)]
    decide

/-- C13, amended. For every frame produced by `xmit`, the header length field
is 23, the byte count of the whole frame: 10 header bytes, 11 payload bytes
and the 2 trailing CRC bytes. -/
theorem xmit_length_field_counts_crc (sock : List (List Nat))
    (cmd_tuple : Nat × Nat × Nat × Nat × Nat) :
    ∃ frame, MsgProtocol.xmit sock cmd_tuple = sock ++ [frame] ∧
      be16At frame 8 = 23 ∧
      frame.length = 23 ∧
      frame.length = sizeof_msg_hdr_t + sizeof_msg_payload_t + 2 := by
  refine ⟨xmitBody cmd_tuple ++ htons_mem (crc16 (xmitBody cmd_tuple)), xmit_eq _ _, ?_, ?_, ?_⟩
  · rw [be16At_xmit_frame _ _ 8 (by decide)]
    simp only [be16At, xmitBody, List.getD_cons_succ, List.getD_cons_zero]
  · rw [List.length_append, xmitBody_length]
    rfl
  · rw [List.length_append, xmitBody_length]
    rfl

/-! ## The inbound CRC is not read -/

theorem getD_take_of_lt (l : List Nat) (n i : Nat) (hi : i < n) :
    (l.take n).getD i 0 = l.getD i 0 := by
  simp [List.getD_eq_getElem?_getD, List.getElem?_take, hi]

theorem handle_take21 (p : Platform) (uh up : List Nat) (sock : List (List Nat))
    (packet : List Nat) (h : 21 ≤ packet.length) :
    MsgProtocol.handle p uh up sock packet =
      MsgProtocol.handle p [] [] sock (packet.take 21) := by
  have h2 : 21 ≤ (packet.take 21).length := by
    rw [List.length_take]
    omega
  rw [handle_long _ _ _ _ _ h, handle_long _ _ _ _ _ h2]
  simp only [be16At, be64At, replyClass, getD_take_of_lt, Nat.lt_add_one, Nat.reduceAdd,
    Nat.reduceLT]

/-- C14. The inbound CRC is not verified: two packets of at least 21 bytes
that agree on their first 21 bytes, whatever follows them, get the same reply
and the same `Request` from `handle`. -/
theorem handle_ignores_bytes_after_payload (p : Platform) (uh1 up1 uh2 up2 : List Nat)
    (sock : List (List Nat)) (packet1 packet2 : List Nat)
    (h1 : 21 ≤ packet1.length) (h2 : 21 ≤ packet2.length)
    (h : packet1.take 21 = packet2.take 21) :
    MsgProtocol.handle p uh1 up1 sock packet1 = MsgProtocol.handle p uh2 up2 sock packet2 := by
  rw [handle_take21 p uh1 up1 sock packet1 h1, handle_take21 p uh2 up2 sock packet2 h2, h]

/-- Witness of C14: one frame with the CRC bytes `E8 55` and with the bytes
`00 00 FF` in their place. -/
theorem handle_ignores_bytes_after_payload_witness :
    MsgProtocol.handle Platform.LLP64 [] [] []
        [0x0E, 0, 1, 3, 0xE8, 0x02, 0, 7, 0, 23, 0, 0, 0, 0, 0, 0, 0, 9, 1, 5, 1, 0xE8, 0x55] =
      MsgProtocol.handle Platform.LLP64 [] [] []
        [0x0E, 0, 1, 3, 0xE8, 0x02, 0, 7, 0, 23, 0, 0, 0, 0, 0, 0, 0, 9, 1, 5, 1, 0, 0, 0xFF] :=
  handle_ignores_bytes_after_payload Platform.LLP64 [] [] [] [] []
    [0x0E, 0, 1, 3, 0xE8, 0x02, 0, 7, 0, 23, 0, 0, 0, 0, 0, 0, 0, 9, 1, 5, 1, 0xE8, 0x55]
    [0x0E, 0, 1, 3, 0xE8, 0x02, 0, 7, 0, 23, 0, 0, 0, 0, 0, 0, 0, 9, 1, 5, 1, 0, 0, 0xFF]
    (by decide) (by decide) (by decide)

/-! ## Car movement -/

theorem goToFloor_loop_upward (s : ElevatorCtrl) (node_addr msg_id floor : Nat)
    (hF : floor < 255) :
    ∀ (fuel i : Nat) (log : List Emission), i ≤ floor + 1 → floor + 2 - i ≤ fuel →
      goToFloor_loop s node_addr msg_id floor fuel i log =
        some (log ++ (List.range (floor + 1 - i)).map
          (fun k => ((node_addr, msg_id, 3, i + k, 1), s))) := by
  intro fuel
  induction fuel with
  | zero => intro i log hi hf; omega
  | succ n ih =>
    intro i log hi hf
    unfold goToFloor_loop
    by_cases hle : i ≤ floor
    · rw [if_pos hle, Nat.mod_eq_of_lt (by omega), ih (i + 1) _ (by omega) (by omega)]
      have hr : floor + 1 - i = (floor + 1 - (i + 1)) + 1 := by omega
      rw [hr, List.range_succ_eq_map, List.map_cons, List.map_map, List.append_assoc]
      have hfun : ((fun k => ((node_addr, msg_id, 3, i + k, 1), s)) ∘ Nat.succ :
          Nat → Emission) = fun k => ((node_addr, msg_id, 3, i + 1 + k, 1), s) := by
        funext k
        simp only [Function.comp, Nat.succ_eq_add_one]
        rw [Nat.add_assoc, Nat.add_comm 1 k]
      rw [hfun]
      rfl
    · rw [if_neg hle]
      have hz : floor + 1 - i = 0 := by omega
      rw [hz]
      simp

theorem goToFloor_up_eq (s : ElevatorCtrl) (node_addr msg_id floor fuel : Nat)
    (hL : s.location_ ≤ floor) (hF : floor < 255) (hfuel : floor - s.location_ + 2 ≤ fuel) :
    s.goToFloor fuel node_addr msg_id floor =
      some ({ s with location_ := floor, state_ := State.STOPPED, door_ := Door.CLOSED },
        (List.range (floor + 1 - s.location_)).map
            (fun k => ((node_addr, msg_id, 3, s.location_ + k, 1),
              { s with state_ := State.MOVING })) ++
          [((node_addr, msg_id, 3, floor, 2),
            { s with location_ := floor, state_ := State.STOPPED, door_ := Door.OPEN })]) := by
  unfold ElevatorCtrl.goToFloor
  simp only []
  rw [goToFloor_loop_upward _ _ _ _ hF fuel s.location_ [] (by omega) (by omega)]
  rfl

/-- C15. For every car location `L` and target floor `F` with `L ≤ F < 255`
and every `(node, msgId)`, `goToFloor` returns (given `F - L + 2` loop tests)
and emits exactly `(node, msgId, 3, i, MOVING = 1)` for `i = L, L+1, ..., F` in
that order, followed by the one event `(node, msgId, 3, F, STOPPED = 2)`. -/
theorem goToFloor_upward_events (s : ElevatorCtrl) (node_addr msg_id floor fuel : Nat)
    (hL : s.location_ ≤ floor) (hF : floor < 255) (hfuel : floor - s.location_ + 2 ≤ fuel) :
    ∃ s' log, s.goToFloor fuel node_addr msg_id floor = some (s', log) ∧
      log.map Prod.fst =
        (List.range (floor + 1 - s.location_)).map
            (fun k => (node_addr, msg_id, 3, s.location_ + k, 1)) ++
          [(node_addr, msg_id, 3, floor, 2)] := by
  refine ⟨_, _, goToFloor_up_eq s node_addr msg_id floor fuel hL hF hfuel, ?_⟩
  simp [List.map_map, Function.comp]

/-- Witness of C15: from floor 2 to floor 4. -/
theorem goToFloor_upward_events_witness :
    ∃ s' log,
      ({ ElevatorCtrl.init with location_ := 2 } : ElevatorCtrl).goToFloor 4 7 1 4 =
        some (s', log) ∧
      log.map Prod.fst =
        (List.range (4 + 1 - 2)).map (fun k => (7, 1, 3, 2 + k, 1)) ++ [(7, 1, 3, 4, 2)] :=
  goToFloor_upward_events { ElevatorCtrl.init with location_ := 2 } 7 1 4 4
    (by decide) (by decide) (by decide)

/-- C16 as stated fails: with the car at floor 0 and STOPPED, after
CALL(floor 5, UP) one dispatch step emits MOVING events for the floors
0, 1, 2, 3, 4, 5 (floor 0 included), which is not the list for the floors
1, 2, 3, 4, 5; the final event is (floor 5, STOPPED). -/
theorem scenario_call_floor5_emits_floor0 :
    ∃ s1 s2 log,
      ElevatorCtrl.init.input_data_consumer Platform.LP64 1000 (7, 1, 1, 5, 1) = .ok s1 ∧
      s1.process Platform.LP64 7 = some (s2, log) ∧
      log.map Prod.fst =
        [(7, 1, 3, 0, 1), (7, 1, 3, 1, 1), (7, 1, 3, 2, 1), (7, 1, 3, 3, 1), (7, 1, 3, 4, 1),
          (7, 1, 3, 5, 1), (7, 1, 3, 5, 2)] ∧
      log.map Prod.fst ≠
        [(7, 1, 3, 1, 1), (7, 1, 3, 2, 1), (7, 1, 3, 3, 1), (7, 1, 3, 4, 1),
          (7, 1, 3, 5, 1), (7, 1, 3, 5, 2)] := by
  refine ⟨_, _, _, rfl, rfl, ?_, ?_⟩ <;> decide

/-- C16, amended. With the car at floor 0 and STOPPED, submitting
CALL(floor 5, UP) and running one dispatch step emits MOVING events for exactly
the floors 0, 1, 2, 3, 4, 5 in that order, and the final event is
(floor 5, STOPPED). -/
theorem scenario_call_floor5 (p : Platform) (now : Int) (node_addr msg_id fuel : Nat) :
    ∃ s1 s2 log,
      ElevatorCtrl.init.input_data_consumer p now (node_addr, msg_id, 1, 5, 1) = .ok s1 ∧
      s1.process p (fuel + 7) = some (s2, log) ∧
      log.map Prod.fst =
        [(node_addr, msg_id, 3, 0, 1), (node_addr, msg_id, 3, 1, 1), (node_addr, msg_id, 3, 2, 1),
          (node_addr, msg_id, 3, 3, 1), (node_addr, msg_id, 3, 4, 1), (node_addr, msg_id, 3, 5, 1),
          (node_addr, msg_id, 3, 5, 2)] := by
  have h1 : ElevatorCtrl.init.input_data_consumer p now (node_addr, msg_id, 1, 5, 1) =
      .ok { ElevatorCtrl.init with
            currentQueue_ := [Request.ctor p node_addr msg_id now 0 5 1 true] } := rfl
  have h2 := goToFloor_up_eq ElevatorCtrl.init node_addr msg_id 5 (fuel + 7)
    (by decide) (by decide) (by show 5 - 0 + 2 ≤ fuel + 7; omega)
  exact ⟨_, _, _, h1, h2, rfl⟩

/-- C17, the code on downward moves: whenever the target floor is below the
car location, `goToFloor` returns after the first loop test and its only
emission is the final `(node, msgId, 3, F, STOPPED = 2)`; no MOVING event is
emitted for any floor between the location and the target. -/
theorem goToFloor_downward_emits_only_stop (s : ElevatorCtrl)
    (node_addr msg_id floor fuel : Nat) (h : floor < s.location_) :
    s.goToFloor (fuel + 1) node_addr msg_id floor =
      some ({ s with location_ := floor, state_ := State.STOPPED, door_ := Door.CLOSED },
        [((node_addr, msg_id, 3, floor, 2),
          { s with location_ := floor, state_ := State.STOPPED, door_ := Door.OPEN })]) := by
  have hloop : goToFloor_loop { s with state_ := State.MOVING } node_addr msg_id floor (fuel + 1)
      s.location_ [] = some [] := by
    unfold goToFloor_loop
    rw [if_neg (by omega)]
  unfold ElevatorCtrl.goToFloor
  simp only []
  rw [hloop]
  rfl

/-- Witness of C17: from floor 5 down to floor 2. -/
theorem goToFloor_downward_emits_only_stop_witness :
    ({ ElevatorCtrl.init with location_ := 5 } : ElevatorCtrl).goToFloor (9 + 1) 7 1 2 =
      some ({ ElevatorCtrl.init with location_ := 2 },
        [((7, 1, 3, 2, 2),
          { ElevatorCtrl.init with location_ := 2, door_ := Door.OPEN })]) :=
  goToFloor_downward_emits_only_stop { ElevatorCtrl.init with location_ := 5 } 7 1 2 9
    (by decide)

theorem goToFloor_loop_moving (s : ElevatorCtrl) (node_addr msg_id floor : Nat) :
    ∀ (fuel i : Nat) (log out : List Emission),
      goToFloor_loop s node_addr msg_id floor fuel i log = some out →
      ∃ extra, out = log ++ extra ∧
        ∀ e ∈ extra, e.1.2.2.2.2 = 1 ∧ e.1.1 = node_addr ∧ e.1.2.1 = msg_id ∧ e.2 = s := by
  intro fuel
  induction fuel with
  | zero =>
    intro i log out h
    simp [goToFloor_loop] at h
  | succ n ih =>
    intro i log out h
    unfold goToFloor_loop at h
    by_cases hle : i ≤ floor
    · rw [if_pos hle] at h
      obtain ⟨extra, he, hall⟩ := ih _ _ _ h
      refine ⟨((node_addr, msg_id, 3, i, State.MOVING.toUInt8), s) :: extra, ?_, ?_⟩
      · rw [he, List.append_assoc]
        rfl
      · intro e hmem
        rcases List.mem_cons.mp hmem with rfl | hmem
        · exact ⟨rfl, rfl, rfl, rfl⟩
        · exact hall e hmem
    · rw [if_neg hle] at h
      refine ⟨[], ?_, ?_⟩
      · rw [List.append_nil]
        exact (Option.some.inj h).symm
      · intro e hmem
        cases hmem

/-- C18. Whenever `goToFloor` returns for a state and a target floor `F`: the
location is then `F`, the motion STOPPED and the door CLOSED; the direction
and the three queues are as before the call; and the last emission is
`(node, msgId, 3, F, STOPPED)`, made with location `F`, motion STOPPED and the
door OPEN, every emission before it being a MOVING event. -/
theorem goToFloor_postcondition (fuel : Nat) (s : ElevatorCtrl) (node_addr msg_id floor : Nat)
    (res : ElevatorCtrl × List Emission)
    (h : s.goToFloor fuel node_addr msg_id floor = some res) :
    res.1.location_ = floor ∧ res.1.state_ = State.STOPPED ∧ res.1.door_ = Door.CLOSED ∧
    res.1.direction_ = s.direction_ ∧ res.1.upQueue_ = s.upQueue_ ∧
    res.1.downQueue_ = s.downQueue_ ∧ res.1.currentQueue_ = s.currentQueue_ ∧
    ∃ moving snapshot,
      res.2 = moving ++ [((node_addr, msg_id, 3, floor, 2), snapshot)] ∧
      snapshot.location_ = floor ∧ snapshot.state_ = State.STOPPED ∧
      snapshot.door_ = Door.OPEN ∧
      ∀ e ∈ moving, e.1.2.2.2.2 = 1 := by
  unfold ElevatorCtrl.goToFloor at h
  simp only [] at h
  cases hl : goToFloor_loop { s with state_ := State.MOVING } node_addr msg_id floor fuel
      s.location_ [] with
  | none =>
    rw [hl] at h
    cases h
  | some log =>
    rw [hl] at h
    have hres := (Option.some.inj h).symm
    obtain ⟨extra, he, hall⟩ := goToFloor_loop_moving _ _ _ _ _ _ _ _ hl
    rw [List.nil_append] at he
    subst he
    rw [hres]
    exact ⟨rfl, rfl, rfl, rfl, rfl, rfl, rfl, log, _, rfl, rfl, rfl, rfl,
      fun e hmem => (hall e hmem).1⟩

/-- Witness of C18: from floor 0 to floor 2. -/
theorem goToFloor_postcondition_witness :
    ∃ res, ElevatorCtrl.init.goToFloor 10 7 1 2 = some res ∧
      res.1.location_ = 2 ∧ res.1.state_ = State.STOPPED ∧ res.1.door_ = Door.CLOSED ∧
      res.2.length = 4 :=
  have h : ElevatorCtrl.init.goToFloor 10 7 1 2 =
      some ({ ElevatorCtrl.init with location_ := 2 },
        [((7, 1, 3, 0, 1), { ElevatorCtrl.init with state_ := State.MOVING }),
         ((7, 1, 3, 1, 1), { ElevatorCtrl.init with state_ := State.MOVING }),
         ((7, 1, 3, 2, 1), { ElevatorCtrl.init with state_ := State.MOVING }),
         ((7, 1, 3, 2, 2), { ElevatorCtrl.init with location_ := 2, door_ := Door.OPEN })]) :=
    rfl
  have w := goToFloor_postcondition 10 ElevatorCtrl.init 7 1 2 _ h
  ⟨_, h, w.1, w.2.1, w.2.2.1, rfl⟩

/-! ## Sweep promotion -/

theorem getLowestTime_loop_nonempty (r : Request) (q : List Request) :
    ∀ (fuel : Nat) (lowest : Int), getLowestTime_loop (r :: q) fuel lowest = none := by
  intro fuel
  induction fuel with
  | zero => intro lowest; rfl
  | succ n ih =>
    intro lowest
    unfold getLowestTime_loop
    exact ih _

/-- C19, the code on a pending sweep: with `currentQueue_` empty and a
request in `upQueue_`, or with `currentQueue_` empty and a request in
`downQueue_`, one dispatch step does not return, however many loop tests it
is given: the time scan of the non-empty queue never ends, so no direction is
chosen and no request is moved into `currentQueue_`. -/
theorem process_never_promotes (p : Platform) (fuel : Nat) (s : ElevatorCtrl)
    (r : Request) (q : List Request) :
    ElevatorCtrl.process p fuel { s with currentQueue_ := [], upQueue_ := r :: q } = none ∧
    ElevatorCtrl.process p fuel { s with currentQueue_ := [], downQueue_ := r :: q } = none := by
  constructor
  · simp only [ElevatorCtrl.process, ElevatorCtrl.preProcessNextQueue,
      ElevatorCtrl.getLowestTimeUpQueue, getLowestTime_loop_nonempty]
  · simp only [ElevatorCtrl.process, ElevatorCtrl.preProcessNextQueue,
      ElevatorCtrl.getLowestTimeDownQueue, getLowestTime_loop_nonempty]
    cases ElevatorCtrl.getLowestTimeUpQueue p fuel
        { s with currentQueue_ := [], downQueue_ := r :: q } <;> rfl

/-- C20, the code on a non-empty queue: `getLowestTimeUpQueue` with a request
in `upQueue_`, and `getLowestTimeDownQueue` with a request in `downQueue_`, do
not return, however many loop tests they are given; on an empty queue they
return the sentinel `LONG_MAX` at the first test. -/
theorem getLowestTime_never_returns_on_pending (p : Platform) (fuel : Nat) (s : ElevatorCtrl)
    (r : Request) (q : List Request) :
    ElevatorCtrl.getLowestTimeUpQueue p fuel { s with upQueue_ := r :: q } = none ∧
    ElevatorCtrl.getLowestTimeDownQueue p fuel { s with downQueue_ := r :: q } = none ∧
    ElevatorCtrl.getLowestTimeUpQueue p (fuel + 1) { s with upQueue_ := [] } =
      some (LONG_MAX p) ∧
    ElevatorCtrl.getLowestTimeDownQueue p (fuel + 1) { s with downQueue_ := [] } =
      some (LONG_MAX p) :=
  ⟨getLowestTime_loop_nonempty r q fuel _, getLowestTime_loop_nonempty r q fuel _, rfl, rfl⟩

/-! ## Order of the priority queues -/

/-- C21, the code at failing inputs: with the car at floor 9, the UP calls
for floors 1 and 2 (in either order) leave an `upQueue_` whose drain loop
hands the floors to `currentQueue_` as 2, 1, and the five UP calls for floors
2, 5, 3, 1, 4 are handed over as 5, 4, 3, 2, 1: the highest floor first, not
in non-decreasing floor order. -/
theorem upQueue_drains_highest_floor_first :
    (∃ s1 s2,
      ({ ElevatorCtrl.init with location_ := 9 } : ElevatorCtrl).input_data_consumer
        Platform.LP64 1000 (7, 1, 1, 1, 1) = .ok s1 ∧
      s1.input_data_consumer Platform.LP64 1001 (7, 2, 1, 2, 1) = .ok s2 ∧
      s2.currentQueue_ = [] ∧
      (drainQueue upComparator s2.upQueue_.length s2.upQueue_ s2.currentQueue_).2.map
        Request.floor_ = [2, 1]) ∧
    (∃ s1 s2,
      ({ ElevatorCtrl.init with location_ := 9 } : ElevatorCtrl).input_data_consumer
        Platform.LP64 1000 (7, 1, 1, 2, 1) = .ok s1 ∧
      s1.input_data_consumer Platform.LP64 1001 (7, 2, 1, 1, 1) = .ok s2 ∧
      s2.currentQueue_ = [] ∧
      (drainQueue upComparator s2.upQueue_.length s2.upQueue_ s2.currentQueue_).2.map
        Request.floor_ = [2, 1]) ∧
    (drainQueue upComparator 5
        ([2, 5, 3, 1, 4].foldl
          (fun q f => priority_queue_push upComparator q
            (Request.ctor Platform.LP64 7 1 1000 0 f 1 true)) [])
        []).2.map Request.floor_ = [5, 4, 3, 2, 1] := by
  refine ⟨⟨_, _, rfl, rfl, rfl, ?_⟩, ⟨_, _, rfl, rfl, rfl, ?_⟩, ?_⟩ <;> decide

/-- C22, the code at failing inputs: with the car at floor 0, the DOWN calls
for floors 5 and 7 (in either order) leave a `downQueue_` whose drain loop
hands the floors to `currentQueue_` as 5, 7, and the five DOWN calls for
floors 6, 9, 7, 5, 8 are handed over as 5, 6, 7, 8, 9: the lowest floor first,
not in non-increasing floor order. -/
theorem downQueue_drains_lowest_floor_first :
    (∃ s1 s2,
      ElevatorCtrl.init.input_data_consumer Platform.LP64 1000 (7, 1, 1, 5, 2) = .ok s1 ∧
      s1.input_data_consumer Platform.LP64 1001 (7, 2, 1, 7, 2) = .ok s2 ∧
      s2.currentQueue_ = [] ∧
      (drainQueue downComparator s2.downQueue_.length s2.downQueue_ s2.currentQueue_).2.map
        Request.floor_ = [5, 7]) ∧
    (∃ s1 s2,
      ElevatorCtrl.init.input_data_consumer Platform.LP64 1000 (7, 1, 1, 7, 2) = .ok s1 ∧
      s1.input_data_consumer Platform.LP64 1001 (7, 2, 1, 5, 2) = .ok s2 ∧
      s2.currentQueue_ = [] ∧
      (drainQueue downComparator s2.downQueue_.length s2.downQueue_ s2.currentQueue_).2.map
        Request.floor_ = [5, 7]) ∧
    (drainQueue downComparator 5
        ([6, 9, 7, 5, 8].foldl
          (fun q f => priority_queue_push downComparator q
            (Request.ctor Platform.LP64 7 1 1000 0 f 2 true)) [])
        []).2.map Request.floor_ = [5, 6, 7, 8, 9] := by
  refine ⟨⟨_, _, rfl, rfl, rfl, ?_⟩, ⟨_, _, rfl, rfl, rfl, ?_⟩, ?_⟩ <;> decide

/-! ## The dispatch step -/

theorem goToFloor_loop_255 (s : ElevatorCtrl) (node_addr msg_id : Nat) :
    ∀ (fuel i : Nat) (log : List Emission), i ≤ 255 →
      goToFloor_loop s node_addr msg_id 255 fuel i log = none := by
  intro fuel
  induction fuel with
  | zero => intro i log _; rfl
  | succ n ih =>
    intro i log hi
    unfold goToFloor_loop
    rw [if_pos hi]
    exact ih _ _ (by omega)

theorem goToFloor_255 (fuel : Nat) (s : ElevatorCtrl) (node_addr msg_id : Nat)
    (h : s.location_ ≤ 255) : s.goToFloor fuel node_addr msg_id 255 = none := by
  unfold ElevatorCtrl.goToFloor
  simp only []
  rw [goToFloor_loop_255 _ _ _ fuel s.location_ [] h]

theorem goToFloor_down_eq (s : ElevatorCtrl) (node_addr msg_id floor fuel : Nat)
    (h : floor < s.location_) :
    s.goToFloor (fuel + 1) node_addr msg_id floor =
      some ({ s with location_ := floor, state_ := State.STOPPED, door_ := Door.CLOSED },
        [((node_addr, msg_id, 3, floor, 2),
          { s with location_ := floor, state_ := State.STOPPED, door_ := Door.OPEN })]) := by
  have hloop : goToFloor_loop { s with state_ := State.MOVING } node_addr msg_id floor (fuel + 1)
      s.location_ [] = some [] := by
    unfold goToFloor_loop
    rw [if_neg (by omega)]
  unfold ElevatorCtrl.goToFloor
  simp only []
  rw [hloop]
  rfl

theorem goToFloor_returns (s : ElevatorCtrl) (node_addr msg_id floor fuel : Nat)
    (hF : floor < 255) :
    ∃ res, s.goToFloor (fuel + 257) node_addr msg_id floor = some res := by
  by_cases hL : s.location_ ≤ floor
  · exact ⟨_, goToFloor_up_eq s node_addr msg_id floor (fuel + 257) hL hF (by omega)⟩
  · exact ⟨_, goToFloor_down_eq s node_addr msg_id floor (fuel + 256) (by omega)⟩

theorem goToFloor_some (fuel : Nat) (s : ElevatorCtrl) (node_addr msg_id floor : Nat)
    (res : ElevatorCtrl × List Emission)
    (h : s.goToFloor fuel node_addr msg_id floor = some res) :
    res.1 = { s with location_ := floor, state_ := State.STOPPED, door_ := Door.CLOSED } ∧
    ∀ e ∈ res.2, e.1.1 = node_addr ∧ e.1.2.1 = msg_id := by
  unfold ElevatorCtrl.goToFloor at h
  simp only [] at h
  cases hl : goToFloor_loop { s with state_ := State.MOVING } node_addr msg_id floor fuel
      s.location_ [] with
  | none =>
    rw [hl] at h
    cases h
  | some log =>
    rw [hl] at h
    have hres := (Option.some.inj h).symm
    obtain ⟨extra, he, hall⟩ := goToFloor_loop_moving _ _ _ _ _ _ _ _ hl
    rw [List.nil_append] at he
    subst he
    rw [hres]
    refine ⟨rfl, ?_⟩
    intro e hmem
    rcases List.mem_append.mp hmem with hm | hm
    · exact ⟨(hall e hm).2.1, (hall e hm).2.2.1⟩
    · rw [List.mem_singleton] at hm
      subst hm
      exact ⟨rfl, rfl⟩

/-- C23, what the code does: with `r` at the front of `currentQueue_`, one
dispatch step is `goToFloor` for `r`'s node address, message id and floor on
the scheduler whose `currentQueue_` is the rest of the queue in its order.
Whenever the step returns, `currentQueue_` is that rest, `upQueue_` and
`downQueue_` are untouched, the car is at `r`'s floor and every emission
carries `r`'s node address and message id. The step returns when `r`'s floor
is below 255, and never returns when it is 255. -/
theorem process_serves_front_request (p : Platform) (fuel : Nat) (s : ElevatorCtrl)
    (r : Request) (rest : List Request) :
    ElevatorCtrl.process p fuel { s with currentQueue_ := r :: rest } =
      ElevatorCtrl.goToFloor fuel { s with currentQueue_ := rest }
        r.node_addr_ r.msg_id_ r.floor_ ∧
    (∀ res, ElevatorCtrl.process p fuel { s with currentQueue_ := r :: rest } = some res →
      res.1.currentQueue_ = rest ∧ res.1.upQueue_ = s.upQueue_ ∧
      res.1.downQueue_ = s.downQueue_ ∧ res.1.location_ = r.floor_ ∧
      ∀ e ∈ res.2, e.1.1 = r.node_addr_ ∧ e.1.2.1 = r.msg_id_) ∧
    (r.floor_ < 255 →
      ∃ res, ElevatorCtrl.process p (fuel + 257) { s with currentQueue_ := r :: rest } =
        some res) ∧
    (r.floor_ = 255 → s.location_ ≤ 255 →
      ElevatorCtrl.process p fuel { s with currentQueue_ := r :: rest } = none) := by
  refine ⟨rfl, ?_, ?_, ?_⟩
  · intro res h
    obtain ⟨h1, h2⟩ := goToFloor_some fuel { s with currentQueue_ := rest } _ _ _ res h
    rw [h1]
    exact ⟨rfl, rfl, rfl, rfl, h2⟩
  · intro hF
    exact goToFloor_returns { s with currentQueue_ := rest } _ _ _ fuel hF
  · intro hF hL
    show ElevatorCtrl.goToFloor fuel { s with currentQueue_ := rest } _ _ r.floor_ = none
    rw [hF]
    exact goToFloor_255 fuel _ _ _ hL

/-- Witness of C23: a request for floor 255 at the front of `currentQueue_`
with the car at floor 0, given 1000 loop tests. -/
theorem process_serves_front_request_witness :
    ElevatorCtrl.process Platform.LP64 1000
      { ElevatorCtrl.init with
        currentQueue_ := [{ node_addr_ := 7, time_ := 1000, msg_id_ := 1, cmd_ := 0,
                            floor_ := 255, direction_ := 1, ok_ := true }] } = none :=
  (process_serves_front_request Platform.LP64 1000 ElevatorCtrl.init
    { node_addr_ := 7, time_ := 1000, msg_id_ := 1, cmd_ := 0, floor_ := 255, direction_ := 1,
      ok_ := true } []).2.2.2 rfl (by decide)

theorem process_idle_eq (p : Platform) (fuel : Nat) (s : ElevatorCtrl) :
    ElevatorCtrl.process p (fuel + 1)
        { s with currentQueue_ := [], upQueue_ := [], downQueue_ := [] } =
      some ({ s with currentQueue_ := [], upQueue_ := [], downQueue_ := [],
                     direction_ := Request.Direction.DOWN }, []) := by
  simp [ElevatorCtrl.process, ElevatorCtrl.preProcessNextQueue,
    ElevatorCtrl.getLowestTimeUpQueue, ElevatorCtrl.getLowestTimeDownQueue,
    getLowestTime_loop, drainQueue]

/-- C24. For every scheduler whose three queues are empty, one dispatch step
returns without any emission (`goToFloor`, which always emits, is not called),
and location, motion, door and the three empty queues are as before. -/
theorem process_idle_no_movement (p : Platform) (fuel : Nat) (s : ElevatorCtrl) :
    ∃ s', ElevatorCtrl.process p (fuel + 1)
        { s with currentQueue_ := [], upQueue_ := [], downQueue_ := [] } = some (s', []) ∧
      s'.location_ = s.location_ ∧ s'.state_ = s.state_ ∧ s'.door_ = s.door_ ∧
      s'.currentQueue_ = [] ∧ s'.upQueue_ = [] ∧ s'.downQueue_ = [] :=
  ⟨_, process_idle_eq p fuel s, rfl, rfl, rfl, rfl, rfl, rfl⟩

/-- C25, the code on an idle step: for every scheduler whose three queues are
empty, one dispatch step sets the direction to DOWN; from the freshly
constructed scheduler, whose direction is UP, one idle step already leaves
direction DOWN, so the state is not unchanged. -/
theorem process_idle_sets_direction_down (p : Platform) (fuel : Nat) (s : ElevatorCtrl) :
    (∃ s', ElevatorCtrl.process p (fuel + 1)
        { s with currentQueue_ := [], upQueue_ := [], downQueue_ := [] } = some (s', []) ∧
      s'.direction_ = Request.Direction.DOWN) ∧
    ElevatorCtrl.init.direction_ = Request.Direction.UP ∧
    ElevatorCtrl.process p (fuel + 1) ElevatorCtrl.init =
      some ({ ElevatorCtrl.init with direction_ := Request.Direction.DOWN }, []) ∧
    ElevatorCtrl.process p (fuel + 1) ElevatorCtrl.init ≠ some (ElevatorCtrl.init, []) := by
  have h0 := process_idle_eq p fuel ElevatorCtrl.init
  have h0' : ElevatorCtrl.process p (fuel + 1) ElevatorCtrl.init =
      some ({ ElevatorCtrl.init with direction_ := Request.Direction.DOWN }, []) := h0
  refine ⟨⟨_, process_idle_eq p fuel s, rfl⟩, rfl, h0', ?_⟩
  rw [h0']
  intro hsame
  have hdir := congrArg (fun o => o.map (fun r => r.1.direction_)) hsame
  exact absurd hdir (by decide)

/-! ## Commands -/

/-- C26. On the freshly constructed scheduler (location 0, STOPPED, CLOSED,
direction UP), the input with command 2 (GO) and floor 3, with any direction
byte, appends exactly one request, with floor 3 and direction UP, to
`currentQueue_` and changes nothing else. -/
theorem go_on_fresh_scheduler (p : Platform) (now : Int) (node_addr msg_id direction : Nat) :
    ElevatorCtrl.init.location_ = 0 ∧ ElevatorCtrl.init.state_ = State.STOPPED ∧
    ElevatorCtrl.init.door_ = Door.CLOSED ∧
    ElevatorCtrl.init.direction_ = Request.Direction.UP ∧
    ElevatorCtrl.init.input_data_consumer p now (node_addr, msg_id, 2, 3, direction) =
      .ok { ElevatorCtrl.init with
            currentQueue_ := [{ node_addr_ := node_addr, time_ := toLong p now,
                                msg_id_ := msg_id, cmd_ := 0, floor_ := 3,
                                direction_ := Request.Direction.UP, ok_ := true }] } :=
  ⟨rfl, rfl, rfl, rfl, rfl⟩

/-- C27. For every command byte other than 1 and 2, `input_data_consumer`
ends with the `std::invalid_argument` error and produces no new scheduler
state (the queues and the car are those before the call); with command 1 and
with command 2 it returns a scheduler state. -/
theorem input_data_consumer_rejects_unknown (p : Platform) (now : Int) (s : ElevatorCtrl)
    (node_addr msg_id cmd floor direction : Nat) (h : cmd ≠ 1 ∧ cmd ≠ 2) :
    s.input_data_consumer p now (node_addr, msg_id, cmd, floor, direction) =
      .error ("Illegal command: " ++ toString cmd) ∧
    (∃ s', s.input_data_consumer p now (node_addr, msg_id, 1, floor, direction) = .ok s') ∧
    (∃ s', s.input_data_consumer p now (node_addr, msg_id, 2, floor, direction) = .ok s') := by
  refine ⟨?_, ⟨_, rfl⟩, ⟨_, rfl⟩⟩
  simp only [ElevatorCtrl.input_data_consumer]
  rw [if_neg h.1, if_neg h.2]

/-- Witness of C27: command byte 3. -/
theorem input_data_consumer_rejects_unknown_witness :
    ElevatorCtrl.init.input_data_consumer Platform.LP64 1000 (7, 1, 3, 5, 1) =
      .error ("Illegal command: " ++ toString 3) :=
  (input_data_consumer_rejects_unknown Platform.LP64 1000 ElevatorCtrl.init 7 1 3 5 1
    ⟨by decide, by decide⟩).1

/-- C28. GO ignores the direction field: with command 2 and the same node
address, message id, floor and clock reading, any two direction bytes give
the same result, which is the result of a CALL (command 1) whose direction is
the car's current direction. -/
theorem go_ignores_direction (p : Platform) (now : Int) (s : ElevatorCtrl)
    (node_addr msg_id floor d1 d2 : Nat) :
    s.input_data_consumer p now (node_addr, msg_id, 2, floor, d1) =
      s.input_data_consumer p now (node_addr, msg_id, 2, floor, d2) ∧
    s.input_data_consumer p now (node_addr, msg_id, 2, floor, d1) =
      s.input_data_consumer p now (node_addr, msg_id, 1, floor, s.direction_) :=
  ⟨rfl, rfl⟩

/-! ## signal_slot -/

section SignalLemmas

variable {F : Type}

theorem map_insert_last (k : Int) (v : F) :
    ∀ (l : List (Int × F)), (∀ e ∈ l, e.1 < k) → map_insert k v l = l ++ [(k, v)] := by
  intro l
  induction l with
  | nil => intro _; rfl
  | cons e rest ih =>
    intro h
    have he : e.1 < k := h e (List.mem_cons_self _ _)
    unfold map_insert
    rw [if_neg (by omega), if_neg (by omega),
      ih (fun x hx => h x (List.mem_cons_of_mem _ hx))]
    rfl

theorem map_erase_eq_filter (k : Int) :
    ∀ (l : List (Int × F)), l.Pairwise (fun a b => a.1 < b.1) →
      map_erase k l = l.filter (fun e => decide (e.1 ≠ k)) := by
  intro l
  induction l with
  | nil => intro _; rfl
  | cons e rest ih =>
    intro h
    rw [List.pairwise_cons] at h
    unfold map_erase
    by_cases hk : e.1 = k
    · rw [if_pos hk, List.filter_cons_of_neg (by simp [hk])]
      symm
      rw [List.filter_eq_self]
      intro x hx
      have hlt := h.1 x hx
      have hne : x.1 ≠ k := by omega
      simp [hne]
    · rw [if_neg hk, List.filter_cons_of_pos (by simp [hk]), ih h.2]

theorem map_erase_absent (k : Int) :
    ∀ (l : List (Int × F)), (∀ e ∈ l, e.1 ≠ k) → map_erase k l = l := by
  intro l
  induction l with
  | nil => intro _; rfl
  | cons e rest ih =>
    intro h
    unfold map_erase
    rw [if_neg (h e (List.mem_cons_self _ _)),
      ih (fun x hx => h x (List.mem_cons_of_mem _ hx))]

theorem run_spec :
    ∀ (calls : List (SignalCall F)) (s : signal_slot F) (n : Nat),
      s.WellFormed n → n + connectCount calls < 2 ^ 31 →
      ∃ s', signal_slot.run calls s =
          some ((List.range (connectCount calls)).map (fun i => ((n + i + 1 : Nat) : Int)), s') ∧
        s'.slots_ = connectedAfter calls n s.slots_ ∧
        s'.WellFormed (n + connectCount calls) := by
  intro calls
  induction calls with
  | nil =>
    intro s n hw _
    exact ⟨s, rfl, rfl, hw⟩
  | cons c calls ih =>
    intro s n hw hn
    obtain ⟨hid, hsorted, hle⟩ := hw
    cases c with
    | connect slot =>
      have hcc : connectCount (SignalCall.connect slot :: calls) = connectCount calls + 1 := rfl
      rw [hcc] at hn ⊢
      have hlt : s.current_id_ < INT_MAX := by
        rw [hid]
        unfold INT_MAX
        have : (n : Int) < 2 ^ 31 - 1 := by
          have h2 : n + 1 < 2 ^ 31 := by omega
          omega
        exact this
      have hins : map_insert (s.current_id_ + 1) slot s.slots_ =
          s.slots_ ++ [(((n + 1 : Nat) : Int), slot)] := by
        rw [map_insert_last _ _ _ (fun e he => by have := hle e he; omega), hid]
        rfl
      have hw1 : signal_slot.WellFormed
          ({ slots_ := s.slots_ ++ [(((n + 1 : Nat) : Int), slot)],
             current_id_ := ((n + 1 : Nat) : Int) } : signal_slot F) (n + 1) := by
        refine ⟨rfl, ?_, ?_⟩
        · rw [List.pairwise_append]
          refine ⟨hsorted, List.pairwise_singleton _ _, ?_⟩
          intro a ha b hb
          rw [List.mem_singleton] at hb
          subst hb
          have := hle a ha
          show a.1 < ((n + 1 : Nat) : Int)
          omega
        · intro e he
          rcases List.mem_append.mp he with h1 | h1
          · have := hle e h1
            omega
          · rw [List.mem_singleton] at h1
            subst h1
            exact le_refl _
      obtain ⟨s', hrun, hslots, hw'⟩ := ih _ (n + 1) hw1 (by omega)
      have hconn : s.connect slot = some (((n + 1 : Nat) : Int),
          { slots_ := s.slots_ ++ [(((n + 1 : Nat) : Int), slot)],
            current_id_ := ((n + 1 : Nat) : Int) }) := by
        unfold signal_slot.connect
        rw [if_pos hlt]
        simp only []
        rw [hins, hid]
        rfl
      refine ⟨s', ?_, ?_, ?_⟩
      · unfold signal_slot.run
        rw [hconn]
        simp only []
        rw [hrun]
        simp only []
        rw [List.range_succ_eq_map, List.map_cons, List.map_map]
        have hf : ((fun i => ((n + i + 1 : Nat) : Int)) ∘ Nat.succ) =
            fun i => ((n + 1 + i + 1 : Nat) : Int) := by
          funext i
          simp only [Function.comp, Nat.succ_eq_add_one]
          congr 1
          omega
        rw [hf]
      · rw [hslots]
        rfl
      · have he : n + (connectCount calls + 1) = n + 1 + connectCount calls := by omega
        rw [he]
        exact hw'
    | disconnect id =>
      have hcc : connectCount (SignalCall.disconnect id :: calls) = connectCount calls := rfl
      rw [hcc] at hn ⊢
      have hfil : map_erase id s.slots_ = s.slots_.filter (fun e => decide (e.1 ≠ id)) :=
        map_erase_eq_filter id s.slots_ hsorted
      have hw1 : signal_slot.WellFormed (s.disconnect id) n := by
        refine ⟨hid, ?_, ?_⟩
        · show (map_erase id s.slots_).Pairwise _
          rw [hfil]
          exact hsorted.filter _
        · intro e he
          have he' : e ∈ map_erase id s.slots_ := he
          rw [hfil] at he'
          exact hle e (List.mem_filter.mp he').1
      obtain ⟨s', hrun, hslots, hw'⟩ := ih _ n hw1 hn
      refine ⟨s', hrun, ?_, hw'⟩
      rw [hslots]
      show connectedAfter calls n (map_erase id s.slots_) = _
      rw [hfil]
      rfl
    | disconnect_all =>
      have hcc : connectCount (SignalCall.disconnect_all :: calls) = connectCount calls := rfl
      rw [hcc] at hn ⊢
      have hw1 : signal_slot.WellFormed s.disconnect_all n :=
        ⟨hid, List.Pairwise.nil, fun e he => absurd he (List.not_mem_nil e)⟩
      obtain ⟨s', hrun, hslots, hw'⟩ := ih _ n hw1 hn
      exact ⟨s', hrun, hslots, hw'⟩

theorem wellFormed_init : (signal_slot.init : signal_slot F).WellFormed 0 :=
  ⟨rfl, List.Pairwise.nil, fun e he => absurd he (List.not_mem_nil e)⟩

theorem connectCount_connects (fs : List F) :
    connectCount (fs.map SignalCall.connect) = fs.length := by
  induction fs with
  | nil => rfl
  | cons f fs ih =>
    show connectCount (fs.map SignalCall.connect) + 1 = fs.length + 1
    rw [ih]

theorem connectedAfter_connects :
    ∀ (fs : List F) (n : Nat) (live : List (Int × F)),
      (connectedAfter (fs.map SignalCall.connect) n live).map Prod.snd =
        live.map Prod.snd ++ fs := by
  intro fs
  induction fs with
  | nil => intro n live; simp [connectedAfter]
  | cons f fs ih =>
    intro n live
    show (connectedAfter (fs.map SignalCall.connect) (n + 1) _).map Prod.snd = _
    rw [ih]
    simp

end SignalLemmas

/-- C29. For every sequence of calls on a fresh `signal_slot` with fewer than
`2 ^ 31` connects, `emit(v)` afterwards calls exactly the slots that are still
connected (each connect adds one, `disconnect(id)` drops the one registered by
the `id`-th connect, `disconnect_all` drops all), each once with `v`, in the
order in which they were connected; after connects only, these are all the
connected slots in call order. -/
theorem emit_calls_connected_slots_in_order {F A : Type} (calls : List (SignalCall F))
    (fs : List F) (v : A) (h : connectCount calls < 2 ^ 31) (hfs : fs.length < 2 ^ 31) :
    (∃ ids s, signal_slot.run calls signal_slot.init = some (ids, s) ∧
      s.emit v = (connectedAfter calls 0 []).map (fun e => (e.2, v))) ∧
    (∃ ids s, signal_slot.run (fs.map SignalCall.connect) signal_slot.init = some (ids, s) ∧
      s.emit v = fs.map (fun f => (f, v))) := by
  constructor
  · obtain ⟨s, hrun, hslots, _⟩ := run_spec calls signal_slot.init 0 wellFormed_init (by omega)
    refine ⟨_, s, hrun, ?_⟩
    unfold signal_slot.emit
    rw [hslots]
    rfl
  · obtain ⟨s, hrun, hslots, _⟩ := run_spec (fs.map SignalCall.connect) signal_slot.init 0
      wellFormed_init (by rw [connectCount_connects]; omega)
    refine ⟨_, s, hrun, ?_⟩
    unfold signal_slot.emit
    rw [hslots]
    have hc := connectedAfter_connects fs 0 ([] : List (Int × F))
    have hm : (connectedAfter (fs.map SignalCall.connect) 0 ([] : List (Int × F))).map
        (fun it => (it.2, v)) =
        ((connectedAfter (fs.map SignalCall.connect) 0 ([] : List (Int × F))).map Prod.snd).map
          (fun f => (f, v)) := by
      rw [List.map_map]
      rfl
    show (connectedAfter (fs.map SignalCall.connect) 0 signal_slot.init.slots_).map
      (fun it => (it.2, v)) = _
    rw [show (signal_slot.init : signal_slot F).slots_ = [] from rfl, hm, hc]
    rfl

/-- Witness of C29: connect 10, connect 20, disconnect 1, connect 30, then
`emit(5)`; and the three connects 10, 20, 30 alone. -/
theorem emit_calls_connected_slots_in_order_witness :
    (∃ ids s, signal_slot.run
        [SignalCall.connect 10, SignalCall.connect 20, SignalCall.disconnect 1,
          SignalCall.connect 30] signal_slot.init = some (ids, s) ∧
      s.emit 5 = (connectedAfter
        [SignalCall.connect 10, SignalCall.connect 20, SignalCall.disconnect 1,
          SignalCall.connect 30] 0 []).map (fun e => (e.2, 5))) ∧
    (∃ ids s, signal_slot.run ([10, 20, 30].map SignalCall.connect) signal_slot.init =
        some (ids, s) ∧
      s.emit 5 = [10, 20, 30].map (fun f => (f, 5))) :=
  emit_calls_connected_slots_in_order (F := Nat) (A := Nat)
    [SignalCall.connect 10, SignalCall.connect 20, SignalCall.disconnect 1,
      SignalCall.connect 30] [10, 20, 30] 5 (by decide) (by decide)

/-- C30. For every sequence of connect, disconnect and disconnect_all calls on
a fresh `signal_slot` with fewer than `2 ^ 31` connects: the connects return
the ids 1, 2, 3, ... in call order, all distinct; and on the signal reached,
`disconnect(id)` leaves exactly the entries whose key is not `id`, in their
order, with the id counter untouched, and changes nothing when no entry has
key `id`. -/
theorem connect_ids_and_disconnect {F : Type} (calls : List (SignalCall F))
    (h : connectCount calls < 2 ^ 31) :
    ∃ ids s, signal_slot.run calls signal_slot.init = some (ids, s) ∧
      ids = (List.range (connectCount calls)).map (fun i => ((i + 1 : Nat) : Int)) ∧
      ids.Nodup ∧
      (∀ id, (s.disconnect id).slots_ = s.slots_.filter (fun e => decide (e.1 ≠ id)) ∧
        (s.disconnect id).current_id_ = s.current_id_) ∧
      (∀ id, (∀ e ∈ s.slots_, e.1 ≠ id) → (s.disconnect id).slots_ = s.slots_) := by
  obtain ⟨s, hrun, _, hw⟩ := run_spec calls signal_slot.init 0 wellFormed_init (by omega)
  have hids : (List.range (connectCount calls)).map (fun i => ((0 + i + 1 : Nat) : Int)) =
      (List.range (connectCount calls)).map (fun i => ((i + 1 : Nat) : Int)) := by
    congr 1
    funext i
    rw [Nat.zero_add]
  rw [hids] at hrun
  refine ⟨_, s, hrun, rfl, ?_, ?_, ?_⟩
  · apply List.Nodup.map
    · intro a b hab
      have hab' : ((a + 1 : Nat) : Int) = ((b + 1 : Nat) : Int) := hab
      omega
    · exact List.nodup_range _
  · intro id
    exact ⟨map_erase_eq_filter id s.slots_ hw.2.1, rfl⟩
  · intro id hid
    exact map_erase_absent id s.slots_ hid

/-- Witness of C30: connect 10, connect 20, disconnect 1, connect 30. -/
theorem connect_ids_and_disconnect_witness :
    ∃ ids s, signal_slot.run
        [SignalCall.connect 10, SignalCall.connect 20, SignalCall.disconnect 1,
          SignalCall.connect 30] signal_slot.init = some (ids, s) ∧
      ids = [1, 2, 3] :=
  have w := connect_ids_and_disconnect (F := Nat)
    [SignalCall.connect 10, SignalCall.connect 20, SignalCall.disconnect 1,
      SignalCall.connect 30] (by decide)
  w.elim fun ids hs => hs.elim fun s hh => ⟨ids, s, hh.1, hh.2.1.trans rfl⟩

/-! ## Stoppable -/

theorem stopRequested_state (s : Stoppable) : (s.stopRequested).2 = s := by
  unfold Stoppable.stopRequested
  split <;> rfl

theorem poll_eq (n : Nat) (s : Stoppable) :
    Stoppable.poll n s = (List.replicate n s.sharedStateReady, s) := by
  induction n with
  | zero => rfl
  | succ k ih =>
    unfold Stoppable.poll
    rw [stopRequested_state, ih]
    have h1 : (s.stopRequested).1 = s.sharedStateReady := by
      unfold Stoppable.stopRequested
      cases s.sharedStateReady <;> rfl
    rw [h1]
    rfl

/-- C31: on a fresh `Stoppable` every one of `m + n` polls answers false and
leaves the object as it is; `stop()` after `m` polls succeeds, every one of
`n` polls after it answers true and leaves the object as it is, and a second
`stop()` fails. Polling never changes the object. -/
theorem stoppable_is_one_shot (m n : Nat) :
    Stoppable.poll (m + n) Stoppable.init = (List.replicate (m + n) false, Stoppable.init) ∧
    (∀ s : Stoppable, (s.stopRequested).2 = s) ∧
    ∃ s1, (Stoppable.poll m Stoppable.init).2.stop = .ok s1 ∧
      Stoppable.poll n s1 = (List.replicate n true, s1) ∧
      ∃ e, s1.stop = .error e := by
  refine ⟨poll_eq _ _, stopRequested_state, { sharedStateReady := true }, ?_, poll_eq _ _, ?_⟩
  · rw [poll_eq]
    rfl
  · exact ⟨_, rfl⟩

/-! ## TransportSocket -/

theorem foldl_close (fds : List Int) :
    ∀ t : TransportSocket,
      (fds.foldl TransportSocket.close t).clientSockets =
        t.clientSockets.filter (fun socket => decide (socket.fileDescriptor ∉ fds)) ∧
      (fds.foldl TransportSocket.close t).staleFileDescriptors =
        t.staleFileDescriptors ++ fds := by
  induction fds with
  | nil =>
    intro t
    simp
  | cons fd rest ih =>
    intro t
    rw [List.foldl_cons]
    obtain ⟨h1, h2⟩ := ih (t.close fd)
    rw [h1, h2]
    constructor
    · unfold TransportSocket.close
      simp only [List.filter_filter]
      apply List.filter_congr
      intro c _
      simp only [List.mem_cons, not_or]
      by_cases hc : c.fileDescriptor = fd <;> simp [hc]
    · unfold TransportSocket.close
      simp

/-- C32 (counterexample): with live clients 3, 4, 5 and an empty stale list,
two calls `close(4)` before the next cleanup pass leave descriptor 4 twice in
the stale list, and the cleanup pass hands 4 to `::close` twice. -/
theorem close_twice_duplicates_stale_descriptor :
    (((({ clientSockets := [⟨3⟩, ⟨4⟩, ⟨5⟩], staleFileDescriptors := [] } :
        TransportSocket).close 4).close 4).staleFileDescriptors).count 4 = 2 ∧
    ((({ clientSockets := [⟨3⟩, ⟨4⟩, ⟨5⟩], staleFileDescriptors := [] } :
        TransportSocket).close 4).close 4).cleanupStale.1 = [4, 4] := by
  decide

/-- C32 (amended): starting right after a cleanup pass (empty stale list),
after `close` calls for pairwise distinct descriptors `fds` no live client has
a descriptor of `fds`, the other live clients are kept in their order, every
descriptor of `fds` occurs exactly once in the stale list, and the cleanup
pass hands each descriptor to `::close` at most once and empties the list. -/
theorem close_distinct_descriptors (t : TransportSocket) (fds : List Int)
    (hstale : t.staleFileDescriptors = []) (hnd : fds.Nodup) :
    (∀ c ∈ (fds.foldl TransportSocket.close t).clientSockets, c.fileDescriptor ∉ fds) ∧
    (fds.foldl TransportSocket.close t).clientSockets =
      t.clientSockets.filter (fun socket => decide (socket.fileDescriptor ∉ fds)) ∧
    (∀ fd ∈ fds, (fds.foldl TransportSocket.close t).staleFileDescriptors.count fd = 1) ∧
    (fds.foldl TransportSocket.close t).cleanupStale.1 = fds ∧
    (fds.foldl TransportSocket.close t).cleanupStale.1.Nodup ∧
    (fds.foldl TransportSocket.close t).cleanupStale.2.staleFileDescriptors = [] := by
  obtain ⟨h1, h2⟩ := foldl_close fds t
  rw [hstale, List.nil_append] at h2
  refine ⟨?_, h1, ?_, h2, ?_, rfl⟩
  · intro c hc
    rw [h1] at hc
    simpa using (List.mem_filter.mp hc).2
  · intro fd hfd
    rw [h2]
    exact List.count_eq_one_of_mem hnd hfd
  · show (fds.foldl TransportSocket.close t).staleFileDescriptors.Nodup
    rw [h2]
    exact hnd

theorem close_distinct_descriptors_witness :
    ({ clientSockets := [⟨3⟩, ⟨4⟩, ⟨5⟩], staleFileDescriptors := [] } :
        TransportSocket).staleFileDescriptors = [] ∧ ([4, 3] : List Int).Nodup ∧
    ([4, 3].foldl TransportSocket.close
        { clientSockets := [⟨3⟩, ⟨4⟩, ⟨5⟩], staleFileDescriptors := [] }).clientSockets =
      ([⟨3⟩, ⟨4⟩, ⟨5⟩] : List ClientSocket).filter
        (fun socket => decide (socket.fileDescriptor ∉ ([4, 3] : List Int))) ∧
    ([4, 3].foldl TransportSocket.close
        { clientSockets := [⟨3⟩, ⟨4⟩, ⟨5⟩], staleFileDescriptors := [] }).cleanupStale.1 =
      [4, 3] :=
  ⟨rfl, by decide,
    (close_distinct_descriptors { clientSockets := [⟨3⟩, ⟨4⟩, ⟨5⟩], staleFileDescriptors := [] }
      [4, 3] rfl (by decide)).2.1,
    (close_distinct_descriptors { clientSockets := [⟨3⟩, ⟨4⟩, ⟨5⟩], staleFileDescriptors := [] }
      [4, 3] rfl (by decide)).2.2.2.1⟩

/-! ## The connection that receives the status frames -/

theorem deliverStatus_some (fd : Int) (es : List Emission) :
    ∀ wire : Int → List (List Nat),
      Elevator.deliverStatus { socket_ := some fd } es wire =
        some (Function.update wire fd
          (es.foldl (fun log e => MsgProtocol.xmit log e.1) (wire fd))) := by
  induction es with
  | nil =>
    intro wire
    unfold Elevator.deliverStatus
    simp
  | cons e rest ih =>
    intro wire
    unfold Elevator.deliverStatus NetProtocol.input_data_consumer
    simp only []
    rw [ih]
    simp

/-- C33: with a connection `A` accepted first and another connection `B`
accepted later, every status frame that the controller emits (whatever
request it is servicing) is written to `B`, in order, and nothing is written
to `A`. -/
theorem status_frames_go_to_last_accepted (A B : Int) (h : A ≠ B)
    (wire : Int → List (List Nat)) (es : List Emission) :
    ∃ wire2, Elevator.deliverStatus ((NetProtocol.init.onAccept A).onAccept B) es wire =
        some wire2 ∧
      wire2 A = wire A ∧
      wire2 B = es.foldl (fun log e => MsgProtocol.xmit log e.1) (wire B) := by
  refine ⟨_, deliverStatus_some B es wire, ?_, ?_⟩
  · exact Function.update_noteq h _ _
  · exact Function.update_same _ _ _

theorem status_frames_go_to_last_accepted_witness :
    (4 : Int) ≠ 5 ∧
    ∃ wire2, Elevator.deliverStatus ((NetProtocol.init.onAccept 4).onAccept 5)
        [((7, 1, 3, 0, 1), ElevatorCtrl.init)] (fun _ => []) = some wire2 ∧
      wire2 4 = [] ∧
      wire2 5 = [((7, 1, 3, 0, 1), ElevatorCtrl.init)].foldl
        (fun log (e : Emission) => MsgProtocol.xmit log e.1) [] :=
  ⟨by decide, status_frames_go_to_last_accepted 4 5 (by decide) (fun _ => [])
    [((7, 1, 3, 0, 1), ElevatorCtrl.init)]⟩

/-! ## Termination of the floor loop -/

/-- C34: for every car location in 0..255, `goToFloor` with target floor 255
does not return, whatever the number of loop tests allowed; for every target
floor below 255 it returns. -/
theorem goToFloor_floor_255_never_returns (fuel : Nat) (s : ElevatorCtrl)
    (node_addr msg_id floor : Nat) :
    ElevatorCtrl.goToFloor fuel { s with location_ := s.location_ % 256 } node_addr msg_id 255 =
      none ∧
    ∃ res, ElevatorCtrl.goToFloor (fuel + 257) s node_addr msg_id (floor % 255) = some res :=
  ⟨goToFloor_255 fuel _ node_addr msg_id (Nat.le_of_lt_succ (Nat.mod_lt _ (by decide))),
    goToFloor_returns s node_addr msg_id (floor % 255) fuel (Nat.mod_lt _ (by decide))⟩

/-! ## Packets shorter than header and payload -/

/-- C35: a three-byte packet and the empty packet are answered with an ACK
when the bytes that the local header held before the reads pass the check,
and `handle` returns a `Request` whose floor is the byte that the local
payload held before the reads. -/
theorem handle_short_packet_reads_stale_memory (p : Platform) (floor : Nat) :
    (MsgProtocol.handle p [0, 0, 0, 0, 0, 2, 0, 0, 0, 0] [0, 0, 0, 0, 0, 0, 0, 0, 1, floor, 1]
        [] [0x0E, 0, 1]).2 = [[0x0E, 0, 0, 0, 1, 0xC1, 0, 0, 0, 10]] ∧
    (MsgProtocol.handle p [0, 0, 0, 0, 0, 2, 0, 0, 0, 0] [0, 0, 0, 0, 0, 0, 0, 0, 1, floor, 1]
        [] [0x0E, 0, 1]).1.floor_ = floor ∧
    (MsgProtocol.handle p [0x0E, 0, 0, 0, 0, 2, 0, 0, 0, 0]
        [0, 0, 0, 0, 0, 0, 0, 0, 1, floor, 1] [] []).2 =
      [[0x0E, 0, 0, 0, 0, 0xC1, 0, 0, 0, 10]] ∧
    (MsgProtocol.handle p [0x0E, 0, 0, 0, 0, 2, 0, 0, 0, 0]
        [0, 0, 0, 0, 0, 0, 0, 0, 1, floor, 1] [] []).1.floor_ = floor := by
  refine ⟨?_, ?_, ?_, ?_⟩ <;> rfl

/-! ## Frame effect of a command -/

/-- C36: for command 1 or 2, `input_data_consumer` succeeds; the car fields
are unchanged, and one request with the given node address, msg id and floor
is added to exactly one queue: appended to `currentQueue_`, or added to the
heap array of `upQueue_` or of `downQueue_` (which is then a permutation of
the new request and the old content), the two other queues unchanged. -/
theorem input_data_consumer_adds_one_request (p : Platform) (now : Int) (s : ElevatorCtrl)
    (node_addr msg_id cmd floor direction : Nat) (h : cmd = 1 ∨ cmd = 2) :
    ∃ s2 r, s.input_data_consumer p now (node_addr, msg_id, cmd, floor, direction) = .ok s2 ∧
      r.node_addr_ = node_addr ∧ r.msg_id_ = msg_id ∧ r.floor_ = floor ∧
      s2.location_ = s.location_ ∧ s2.direction_ = s.direction_ ∧
      s2.state_ = s.state_ ∧ s2.door_ = s.door_ ∧
      ((s2.currentQueue_ = s.currentQueue_ ++ [r] ∧ s2.upQueue_ = s.upQueue_ ∧
          s2.downQueue_ = s.downQueue_) ∨
        (s2.upQueue_.Perm (r :: s.upQueue_) ∧ s2.currentQueue_ = s.currentQueue_ ∧
          s2.downQueue_ = s.downQueue_) ∨
        (s2.downQueue_.Perm (r :: s.downQueue_) ∧ s2.currentQueue_ = s.currentQueue_ ∧
          s2.upQueue_ = s.upQueue_)) := by
  have hcall : ∀ d : Nat, ∃ r : Request,
      r.node_addr_ = node_addr ∧ r.msg_id_ = msg_id ∧ r.floor_ = floor ∧
      (s.call p now node_addr msg_id floor d).location_ = s.location_ ∧
      (s.call p now node_addr msg_id floor d).direction_ = s.direction_ ∧
      (s.call p now node_addr msg_id floor d).state_ = s.state_ ∧
      (s.call p now node_addr msg_id floor d).door_ = s.door_ ∧
      (((s.call p now node_addr msg_id floor d).currentQueue_ = s.currentQueue_ ++ [r] ∧
          (s.call p now node_addr msg_id floor d).upQueue_ = s.upQueue_ ∧
          (s.call p now node_addr msg_id floor d).downQueue_ = s.downQueue_) ∨
        ((s.call p now node_addr msg_id floor d).upQueue_.Perm (r :: s.upQueue_) ∧
          (s.call p now node_addr msg_id floor d).currentQueue_ = s.currentQueue_ ∧
          (s.call p now node_addr msg_id floor d).downQueue_ = s.downQueue_) ∨
        ((s.call p now node_addr msg_id floor d).downQueue_.Perm (r :: s.downQueue_) ∧
          (s.call p now node_addr msg_id floor d).currentQueue_ = s.currentQueue_ ∧
          (s.call p now node_addr msg_id floor d).upQueue_ = s.upQueue_)) := by
    intro d
    refine ⟨Request.ctor p node_addr msg_id now 0 floor d true, rfl, rfl, rfl, ?_⟩
    unfold ElevatorCtrl.call
    simp only []
    by_cases hd : d = Request.Direction.UP
    · rw [if_pos hd]
      by_cases hf : floor ≥ s.location_
      · rw [if_pos hf]
        exact ⟨rfl, rfl, rfl, rfl, Or.inl ⟨rfl, rfl, rfl⟩⟩
      · rw [if_neg hf]
        exact ⟨rfl, rfl, rfl, rfl,
          Or.inr (Or.inl ⟨priority_queue_push_perm _ _ _, rfl, rfl⟩)⟩
    · rw [if_neg hd]
      by_cases hf : floor ≤ s.location_
      · rw [if_pos hf]
        exact ⟨rfl, rfl, rfl, rfl, Or.inl ⟨rfl, rfl, rfl⟩⟩
      · rw [if_neg hf]
        exact ⟨rfl, rfl, rfl, rfl,
          Or.inr (Or.inr ⟨priority_queue_push_perm _ _ _, rfl, rfl⟩)⟩
  rcases h with h | h
  · subst h
    obtain ⟨r, hr⟩ := hcall direction
    exact ⟨_, r, rfl, hr⟩
  · subst h
    obtain ⟨r, hr⟩ := hcall s.direction_
    exact ⟨_, r, rfl, hr⟩

theorem input_data_consumer_adds_one_request_witness :
    ((2 : Nat) = 1 ∨ (2 : Nat) = 2) ∧
    ∃ s2 r, ElevatorCtrl.init.input_data_consumer Platform.LP64 1000 (7, 1, 2, 5, 0) = .ok s2 ∧
      r.node_addr_ = 7 ∧ r.msg_id_ = 1 ∧ r.floor_ = 5 ∧
      s2.location_ = ElevatorCtrl.init.location_ ∧
      s2.direction_ = ElevatorCtrl.init.direction_ ∧
      s2.state_ = ElevatorCtrl.init.state_ ∧ s2.door_ = ElevatorCtrl.init.door_ ∧
      ((s2.currentQueue_ = ElevatorCtrl.init.currentQueue_ ++ [r] ∧
          s2.upQueue_ = ElevatorCtrl.init.upQueue_ ∧
          s2.downQueue_ = ElevatorCtrl.init.downQueue_) ∨
        (s2.upQueue_.Perm (r :: ElevatorCtrl.init.upQueue_) ∧
          s2.currentQueue_ = ElevatorCtrl.init.currentQueue_ ∧
          s2.downQueue_ = ElevatorCtrl.init.downQueue_) ∨
        (s2.downQueue_.Perm (r :: ElevatorCtrl.init.downQueue_) ∧
          s2.currentQueue_ = ElevatorCtrl.init.currentQueue_ ∧
          s2.upQueue_ = ElevatorCtrl.init.upQueue_)) :=
  ⟨Or.inr rfl,
    input_data_consumer_adds_one_request Platform.LP64 1000 ElevatorCtrl.init 7 1 2 5 0
      (Or.inr rfl)⟩

/-! ## Residue of the frame checksum -/

theorem crcStepZero_xor (r c : Nat) :
    crcStepZero (r ^^^ c) = crcRefBit r (c.testBit 0) ^^^ (c / 2) := by
  have hdiv : (r ^^^ c) / 2 = (r / 2) ^^^ (c / 2) := Nat.xor_div_two
  unfold crcStepZero crcRefBit
  rw [hdiv, Nat.testBit_xor]
  cases hr : r.testBit 0 <;> cases hc : c.testBit 0 <;> simp [Nat.xor_assoc] <;>
    rw [Nat.xor_comm (c / 2) 33800]

theorem crcRefBits_eq (b : Nat) :
    ∀ (k r : Nat),
      (List.range k).foldl (fun r i => crcRefBit r (b.testBit i)) r ^^^ (b / 2 ^ k) =
        crcStepZero^[k] (r ^^^ b) := by
  intro k
  induction k with
  | zero => intro r; simp
  | succ n ih =>
    intro r
    rw [Function.iterate_succ_apply', ← ih r, crcStepZero_xor, List.range_succ,
      List.foldl_append]
    simp only [List.foldl_cons, List.foldl_nil]
    have h1 : (b / 2 ^ n).testBit 0 = b.testBit n := by
      rw [← Nat.shiftRight_eq_div_pow, Nat.testBit_shiftRight]
      rfl
    have h2 : b / 2 ^ n / 2 = b / 2 ^ (n + 1) := by
      rw [Nat.div_div_eq_div_mul, Nat.pow_succ]
    rw [h1, h2]

theorem crcRefByte_eq_iterate (r b : Nat) (hb : b < 256) :
    crcRefByte r b = crcStepZero^[8] (r ^^^ b) := by
  have h := crcRefBits_eq b 8 r
  have h0 : b / 2 ^ 8 = 0 := Nat.div_eq_of_lt hb
  rw [h0, Nat.xor_zero] at h
  exact h

theorem xor_low_complement (R : Nat) (hR : R < 65536) :
    R ^^^ ((0xFFFF - R) % 256) = 2 ^ 8 * (R / 2 ^ 8) + 255 := by
  apply Nat.eq_of_testBit_eq
  intro i
  have he : 0xFFFF - R = 2 ^ 16 - (R + 1) := by omega
  have h256 : (256 : Nat) = 2 ^ 8 := rfl
  have h255 : (255 : Nat).testBit i = decide (i < 8) := Nat.testBit_two_pow_sub_one 8 i
  rw [Nat.testBit_xor, he, h256, Nat.testBit_mod_two_pow,
    Nat.testBit_two_pow_sub_succ (by omega : R < 2 ^ 16),
    Nat.testBit_mul_pow_two_add _ (by decide : 255 < 2 ^ 8), h255]
  by_cases hi : i < 8
  · have hi16 : i < 16 := by omega
    simp [hi, hi16]
  · rw [if_neg hi, ← Nat.shiftRight_eq_div_pow, Nat.testBit_shiftRight]
    have : 8 + (i - 8) = i := by omega
    rw [this]
    simp [hi]

set_option maxRecDepth 100000 in
theorem residue_by_high_byte :
    ∀ h : Nat, h < 256 →
      crcStepZero^[8] (crcStepZero^[8] (2 ^ 8 * h + 255) ^^^ (255 - h)) = 0xF0B8 := by
  decide!

theorem residue_two_bytes (R : Nat) (hR : R < 65536) :
    crcRefByte (crcRefByte R ((0xFFFF - R) % 256)) ((0xFFFF - R) / 256) = 0xF0B8 := by
  rw [crcRefByte_eq_iterate _ _ (by omega), crcRefByte_eq_iterate _ _ (by omega),
    xor_low_complement R hR]
  have hh : (0xFFFF - R) / 256 = 255 - R / 2 ^ 8 := by omega
  rw [hh]
  exact residue_by_high_byte (R / 2 ^ 8) (by omega)

theorem crc16_bytes (data : List Nat) :
    htons_mem (crc16 data) =
      [(0xFFFF - crcRefRegister data) % 256, (0xFFFF - crcRefRegister data) / 256] ∧
    crcRefRegister data < 65536 := by
  obtain ⟨e, hlt⟩ := crc16_register_eq data 0xFFFF (by decide)
  have hc : crc16 data =
      ((0xFFFF - crcRefRegister data) % 256) * 256 + (0xFFFF - crcRefRegister data) / 256 := by
    unfold crc16 crcRefRegister
    simp only []
    rw [← e, complement16 _ hlt, swap16 _ (by omega)]
  have hlt2 : crcRefRegister data < 65536 := by
    unfold crcRefRegister
    rw [← e]
    exact hlt
  refine ⟨?_, hlt2⟩
  rw [hc]
  have hlo : (0xFFFF - crcRefRegister data) % 256 < 256 := Nat.mod_lt _ (by decide)
  have hhi : (0xFFFF - crcRefRegister data) / 256 < 256 := by omega
  generalize (0xFFFF - crcRefRegister data) % 256 = lo at hlo
  generalize (0xFFFF - crcRefRegister data) / 256 = hi at hhi
  unfold htons_mem
  have h1 : (lo * 256 + hi) / 256 % 256 = lo := by omega
  have h2 : (lo * 256 + hi) % 256 = hi := by omega
  rw [h1, h2]

/-- C37: for every tuple, `xmit` writes one frame, and the raw CRC register
(started at `0xFFFF`, polynomial `0x8408`, least significant bit first, no
final complement or byte swap) run over all bytes of that frame, its two CRC
bytes included, ends at `0xF0B8`; so does the register loop of `crc16`. -/
theorem xmit_frame_residue (sock : List (List Nat)) (cmd_tuple : Nat × Nat × Nat × Nat × Nat) :
    ∃ frame, MsgProtocol.xmit sock cmd_tuple = sock ++ [frame] ∧
      crcRefRegister frame = 0xF0B8 ∧ frame.foldl crc16_byte 0xFFFF = 0xF0B8 := by
  obtain ⟨hb, hlt⟩ := crc16_bytes (xmitBody cmd_tuple)
  have hres : crcRefRegister (xmitBody cmd_tuple ++ htons_mem (crc16 (xmitBody cmd_tuple))) =
      0xF0B8 := by
    rw [hb]
    unfold crcRefRegister
    rw [List.foldl_append]
    simp only [List.foldl_cons, List.foldl_nil]
    exact residue_two_bytes _ hlt
  refine ⟨_, xmit_eq sock cmd_tuple, hres, ?_⟩
  rw [(crc16_register_eq _ 0xFFFF (by decide)).1]
  exact hres

/-! ## Direction bytes outside the enumeration -/

/-- C38: a CALL whose direction byte is not 1 (UP), for example 0 or 3, is
accepted and classified as a DOWN call is: appended to `currentQueue_` when
the floor is at or below the car, else pushed on `downQueue_`; the enqueued
request stores the direction byte as given. -/
theorem call_with_unknown_direction (p : Platform) (now : Int) (s : ElevatorCtrl)
    (node_addr msg_id floor direction : Nat) (h : direction ≠ Request.Direction.UP) :
    s.input_data_consumer p now (node_addr, msg_id, 1, floor, direction) =
      .ok (if floor ≤ s.location_ then
          { s with currentQueue_ := (s.currentQueue_ ++
              [{ node_addr_ := node_addr, time_ := toLong p now, msg_id_ := msg_id, cmd_ := 0,
                 floor_ := floor, direction_ := direction, ok_ := true }]) }
        else
          { s with downQueue_ := (priority_queue_push downComparator s.downQueue_
              { node_addr_ := node_addr, time_ := toLong p now, msg_id_ := msg_id, cmd_ := 0,
                floor_ := floor, direction_ := direction, ok_ := true }) }) := by
  show Except.ok (s.call p now node_addr msg_id floor direction) = _
  unfold ElevatorCtrl.call
  simp only []
  rw [if_neg h]
  by_cases hf : floor ≤ s.location_
  · rw [if_pos hf, if_pos hf]
    rfl
  · rw [if_neg hf, if_neg hf]
    rfl

theorem call_with_unknown_direction_witness :
    (3 : Nat) ≠ Request.Direction.UP ∧
    ElevatorCtrl.init.input_data_consumer Platform.LP64 1000 (7, 1, 1, 5, 3) =
      .ok (if 5 ≤ ElevatorCtrl.init.location_ then
          { ElevatorCtrl.init with currentQueue_ := (ElevatorCtrl.init.currentQueue_ ++
              [{ node_addr_ := 7, time_ := toLong Platform.LP64 1000, msg_id_ := 1, cmd_ := 0,
                 floor_ := 5, direction_ := 3, ok_ := true }]) }
        else
          { ElevatorCtrl.init with downQueue_ :=
              (priority_queue_push downComparator ElevatorCtrl.init.downQueue_
                { node_addr_ := 7, time_ := toLong Platform.LP64 1000, msg_id_ := 1, cmd_ := 0,
                  floor_ := 5, direction_ := 3, ok_ := true }) }) :=
  ⟨by decide, call_with_unknown_direction Platform.LP64 1000 ElevatorCtrl.init 7 1 5 3
    (by decide)⟩

/-! ## The comparator of the down queue -/

/-- C39: `downComparator` is not a strict weak ordering: it holds between
every request and itself, and in both orders between any two requests with
the same floor. -/
theorem downComparator_not_irreflexive (r r2 : Request) :
    downComparator r r = true ∧
    downComparator r { r2 with floor_ := r.floor_ } = true ∧
    downComparator { r2 with floor_ := r.floor_ } r = true := by
  unfold downComparator
  simp

end ElevatorSys

